import Mathlib

/-!
Shallow embedding of src/csim.c, a set-associative cache simulator, and
verification of the specification's claims about it.

Machine integers are modelled as Nat with explicit reductions mod 2^w where
the width matters: addresses and parsed values are unsigned long (mod 2^64),
the two policy clocks num_fifo / num_lru are unsigned int (mod 2^32).
-/

set_option linter.unusedVariables false

/-- One cache line, mirroring struct Block in src/csim.c: tagBits
(unsigned long), countBlock (long, only ever assigned freshly bumped clock
values, hence nonnegative and below 2^32), validBits (char used as a flag). -/
structure BlockCache where
  tagBits : Nat
  countBlock : Nat
  validBits : Bool
  deriving DecidableEq, Repr

instance : Inhabited BlockCache := ⟨⟨0, 0, false⟩⟩

/-- Eviction policy: FIFO = 1, LRU = 2 in the C enum. -/
inductive Policy where
  | FIFO
  | LRU
  deriving DecidableEq, Repr

/-- Simulation configuration: the globals S, K, B and policy, plus the derived
shift amounts S_temp and B_temp as left by parse_arguments. -/
structure Config where
  S : Nat
  K : Nat
  B : Nat
  policy : Policy
  sTemp : Nat
  bTemp : Nat
  deriving DecidableEq, Repr

/-- The mutable globals of one run: the cache, the two policy clocks
(num_fifo and num_lru, unsigned int, starting at 1) and the three statistics
counters. -/
structure SimState where
  cache : List (List BlockCache)
  num_fifo : Nat
  num_lru : Nat
  hit_count : Nat
  miss_count : Nat
  eviction_count : Nat
  deriving DecidableEq, Repr

/-- Outcome of one access, matching the verbose tags access_data prints. -/
inductive AccessResult where
  | HIT
  | MISS
  | MISSEVICTION
  deriving DecidableEq, Repr

/-- allocate_cache: S sets of K lines, all zero-initialized with validBits 0. -/
def allocate_cache (S K : Nat) : List (List BlockCache) :=
  List.replicate S (List.replicate K ⟨0, 0, false⟩)

/-- State right after allocate_cache: clocks at 1, statistics at 0. -/
def initState (cfg : Config) : SimState :=
  { cache := allocate_cache cfg.S cfg.K
    num_fifo := 1
    num_lru := 1
    hit_count := 0
    miss_count := 0
    eviction_count := 0 }

/-- num_tag in access_data: addr >> (S_temp + B_temp). -/
def num_tag (cfg : Config) (addr : Nat) : Nat := addr >>> (cfg.sTemp + cfg.bTemp)

/-- num_set in access_data: setMask & (addr >> B_temp), with setMask = S - 1. -/
def num_set (cfg : Config) (addr : Nat) : Nat := (cfg.S - 1) &&& (addr >>> cfg.bTemp)

/-- First index satisfying p, scanning from index 0: the C for-loops that
break at the first match. -/
def scanIdx (p : α → Bool) : List α → Option Nat
  | [] => none
  | x :: xs => if p x then some 0 else (scanIdx p xs).map (fun n => n + 1)

/-- The hit scan of access_data: first line whose tag matches and is valid. -/
def findHit (set : List BlockCache) (t : Nat) : Option Nat :=
  scanIdx (fun ln => ln.tagBits == t && ln.validBits) set

/-- The invalid-line scan of access_data: first line with validBits 0. -/
def findFree (set : List BlockCache) : Option Nat :=
  scanIdx (fun ln => !ln.validBits) set

/-- LRU victim scan: lowest_count starts at set[0].countBlock with index 0 and
is replaced only on strictly smaller countBlock. -/
def lruVictim (set : List BlockCache) : Nat :=
  ((List.range set.length).foldl
    (fun acc idx =>
      if acc.1 > (set.getD idx default).countBlock then
        ((set.getD idx default).countBlock, idx)
      else acc)
    ((set.getD 0 default).countBlock, 0)).2

/-- FIFO victim scan: recent starts at 0 and moves to idx whenever
set[recent].countBlock > set[idx].countBlock. -/
def fifoVictim (set : List BlockCache) : Nat :=
  (List.range set.length).foldl
    (fun recent idx =>
      if (set.getD recent default).countBlock > (set.getD idx default).countBlock then idx
      else recent)
    0

/-- The pre-increment of an unsigned-int clock (++num_lru, ++num_fifo). -/
def bump (n : Nat) : Nat := (n + 1) % 2 ^ 32

/-- access_data: one single-line access. Returns the updated globals together
with the outcome tag (HIT, MISS or MISS+EVICTION as printed in verbose mode). -/
def access_data (cfg : Config) (st : SimState) (addr : Nat) : SimState × AccessResult :=
  let t := num_tag cfg addr
  let i := num_set cfg addr
  let set := st.cache.getD i []
  match cfg.policy with
  | Policy.LRU =>
    match findHit set t with
    | some j =>
      let clk := bump st.num_lru
      let line := set.getD j default
      ({ st with
          hit_count := st.hit_count + 1
          num_lru := clk
          cache := st.cache.set i (set.set j { line with countBlock := clk }) },
        AccessResult.HIT)
    | none =>
      match findFree set with
      | some inv =>
        let clk := bump st.num_lru
        ({ st with
            miss_count := st.miss_count + 1
            num_lru := clk
            cache := st.cache.set i (set.set inv ⟨t, clk, true⟩) },
          AccessResult.MISS)
      | none =>
        let v := lruVictim set
        let clk := bump st.num_lru
        let line := set.getD v default
        ({ st with
            miss_count := st.miss_count + 1
            eviction_count := st.eviction_count + 1
            num_lru := clk
            cache := st.cache.set i (set.set v { line with tagBits := t, countBlock := clk }) },
          AccessResult.MISSEVICTION)
  | Policy.FIFO =>
    match findHit set t with
    | some j =>
      ({ st with hit_count := st.hit_count + 1 }, AccessResult.HIT)
    | none =>
      match findFree set with
      | some inv =>
        let clk := bump st.num_fifo
        ({ st with
            miss_count := st.miss_count + 1
            num_fifo := clk
            cache := st.cache.set i (set.set inv ⟨t, clk, true⟩) },
          AccessResult.MISS)
      | none =>
        let v := fifoVictim set
        let clk := bump st.num_fifo
        ({ st with
            miss_count := st.miss_count + 1
            eviction_count := st.eviction_count + 1
            num_fifo := clk
            cache := st.cache.set i (set.set v ⟨t, clk, true⟩) },
          AccessResult.MISSEVICTION)

/-- The addresses handed to access_data for one L/S record: the C loop
for (idx = address; idx < address + size; ++idx) over unsigned longs (so the
bound address + size is taken mod 2^64 and a wrapped bound stops the loop at
once), filtered by idx == address || idx % B == 0; a size of at most 1
accesses just the record's address. -/
def lineAddrs (B address size : Nat) : List Nat :=
  if size > 1 then
    (List.range' address ((address + size) % 2 ^ 64 - address)).filter
      (fun idx => idx == address || idx % B == 0)
  else [address]

/-- One parsed trace record: operation character, address, size. -/
structure TraceRecord where
  cmd : Char
  address : Nat
  size : Nat
  deriving DecidableEq, Repr

/-- Replay of one parsed record: L and S access each selected address once,
M accesses each selected address twice in a row, anything else is ignored. -/
def replay_record (cfg : Config) (st : SimState) (r : TraceRecord) : SimState :=
  if r.cmd = 'L' || r.cmd = 'S' then
    (lineAddrs cfg.B r.address r.size).foldl (fun s a => (access_data cfg s a).1) st
  else if r.cmd = 'M' then
    (lineAddrs cfg.B r.address r.size).foldl
      (fun s a => (access_data cfg (access_data cfg s a).1 a).1) st
  else st

/-- Replay a list of already-parsed records from the freshly allocated cache. -/
def run_trace (cfg : Config) (rs : List TraceRecord) : SimState :=
  rs.foldl (replay_record cfg) (initState cfg)

/-- The observable statistics triple (hits, misses, evictions). -/
def statsOf (st : SimState) : Nat × Nat × Nat :=
  (st.hit_count, st.miss_count, st.eviction_count)

/-- Whitespace in the sense of fscanf (isspace). -/
def isWs (c : Char) : Bool :=
  c == ' ' || c == '\t' || c == '\n' || c == '\r' || c.toNat == 11 || c.toNat == 12

/-- Skip a maximal run of whitespace. -/
def skipWs : List Char → List Char
  | [] => []
  | c :: cs => if isWs c then skipWs cs else c :: cs

/-- Hex digit value, if the character is one. -/
def hexVal (c : Char) : Option Nat :=
  if '0' ≤ c ∧ c ≤ '9' then some (c.toNat - '0'.toNat)
  else if 'a' ≤ c ∧ c ≤ 'f' then some (c.toNat - 'a'.toNat + 10)
  else if 'A' ≤ c ∧ c ≤ 'F' then some (c.toNat - 'A'.toNat + 10)
  else none

/-- Decimal digit value, if the character is one. -/
def decVal (c : Char) : Option Nat :=
  if '0' ≤ c ∧ c ≤ '9' then some (c.toNat - '0'.toNat) else none

/-- Consume a maximal run of hex digits, accumulating an unsigned long. -/
def hexRun : List Char → Nat → Nat × List Char
  | [], acc => (acc, [])
  | c :: cs, acc =>
    match hexVal c with
    | some d => hexRun cs ((acc * 16 + d) % 2 ^ 64)
    | none => (acc, c :: cs)

/-- The %lx conversion: skip whitespace, then require a hex digit; a matching
failure here makes fscanf return short of 3. -/
def parseHex (cs : List Char) : Option (Nat × List Char) :=
  match skipWs cs with
  | [] => none
  | c :: rest =>
    match hexVal c with
    | some d => some (hexRun rest (d % 2 ^ 64))
    | none => none

/-- Consume a maximal run of decimal digits, accumulating an unsigned long. -/
def decRun : List Char → Nat → Nat × List Char
  | [], acc => (acc, [])
  | c :: cs, acc =>
    match decVal c with
    | some d => decRun cs ((acc * 10 + d) % 2 ^ 64)
    | none => (acc, c :: cs)

/-- The %ld conversion, stored into an unsigned long: skip whitespace, optional
sign, then require a decimal digit. -/
def parseDec (cs : List Char) : Option (Nat × List Char) :=
  let go : Bool → List Char → Option (Nat × List Char) := fun neg l =>
    match l with
    | c :: rest =>
      match decVal c with
      | some d =>
        let p := decRun rest d
        some (if neg then (2 ^ 64 - p.1 % 2 ^ 64) % 2 ^ 64 else p.1, p.2)
      | none => none
    | [] => none
  match skipWs cs with
  | '-' :: rest => go true rest
  | '+' :: rest => go false rest
  | l => go false l

/-- One round of fscanf(trace_fp, " %c %lx,%ld", ...): the three converted
values and the remaining input when all three conversions succeed (fscanf
returns 3), otherwise none (EOF or matching failure; the replay loop stops). -/
def fscanf_record (cs : List Char) : Option ((Char × Nat × Nat) × List Char) :=
  match skipWs cs with
  | [] => none
  | c :: cs1 =>
    match parseHex cs1 with
    | none => none
    | some (addr, cs2) =>
      match cs2 with
      | ',' :: cs3 =>
        match parseDec cs3 with
        | none => none
        | some (n, cs4) => some ((c, addr, n), cs4)
      | _ => none

/-- The replay loop body, with fuel for termination. -/
def replay_trace_aux (cfg : Config) : Nat → List Char → SimState → SimState
  | 0, _, st => st
  | fuel + 1, cs, st =>
    match fscanf_record cs with
    | none => st
    | some ((c, a, n), rest) =>
      replay_trace_aux cfg fuel rest (replay_record cfg st ⟨c, a, n⟩)

/-- replay_trace: repeatedly fscanf one record and replay it, until fscanf
does not return 3. Fuel of input length + 1 suffices: each successful fscanf
consumes at least the operation character. -/
def replay_trace (cfg : Config) (input : List Char) : SimState :=
  replay_trace_aux cfg (input.length + 1) input (initState cfg)

/-- The INT_LOG2 macro, 31 - __builtin_clz(x): the floor base-2 logarithm of a
positive 32-bit value. Written with 32 units of fuel so that it reduces by
computation; for x < 2^32 the fuel is never exhausted. -/
def ilog2Aux : Nat → Nat → Nat
  | _, 0 => 0
  | x, fuel + 1 => if 2 ≤ x then ilog2Aux (x / 2) fuel + 1 else 0

/-- The INT_LOG2 macro of the source. -/
def INT_LOG2 (x : Nat) : Nat := ilog2Aux x 32

/-- Two's-complement 32-bit image of an int value. -/
def u32ofInt (x : Int) : Nat := (x % (2 ^ 32 : Int)).toNat

/-- Negation of the NOT_POWER2 gate: clz(v) + ctz(v) == 31 holds for a nonzero
32-bit v exactly when v is a power of two. __builtin_clz(0) is undefined
behavior in the C source; 0 is modelled as failing the gate (the final
S <= 0 check would reject it too). -/
def isPow2u32 (v : Nat) : Bool := v != 0 && (v &&& (v - 1)) == 0

/-- The -p option handler: FIFO gives 1, LRU gives 2, anything else leaves
the policy variable at 0 (undefined). -/
def policyOfString (s : String) : Nat :=
  if s = "FIFO" then 1 else if s = "LRU" then 2 else 0

/-- parse_arguments, for single occurrences of the options S, K, B, p and t:
the -S handler
exits(1) when NOT_POWER2(S); the final check exits(1) unless S > 0, K > 0,
B > 0, policy != 0 and the trace file opened (an unreadable file already
exits in the -t handler; both paths are the none result here). On success
B_temp = INT_LOG2(B), while line 113 of the source assigns INT_LOG2(S) to
the dead local variable c, so S_temp keeps its initial value 0. -/
def parse_arguments (s k b : Int) (polStr : String) (traceOk : Bool) :
    Option Config :=
  if isPow2u32 (u32ofInt s) = false then none
  else if s ≤ 0 ∨ k ≤ 0 ∨ b ≤ 0 ∨ policyOfString polStr = 0 ∨ traceOk = false then none
  else
    some
      { S := s.toNat
        K := k.toNat
        B := b.toNat
        policy := if policyOfString polStr = 1 then Policy.FIFO else Policy.LRU
        sTemp := 0
        bTemp := INT_LOG2 b.toNat }

/-- main: parse_arguments (whose failure is exit(1), reached before
allocate_cache and replay_trace run), then allocate, replay the trace and
report the statistics triple. -/
def main_sim (s k b : Int) (polStr : String) (traceOk : Bool)
    (input : List Char) : Except Unit (Nat × Nat × Nat) :=
  match parse_arguments s k b polStr traceOk with
  | none => Except.error ()
  | some cfg => Except.ok (statsOf (replay_trace cfg input))

/-- Shape well-formedness maintained throughout a run: positive geometry,
S sets in the cache, K lines per set. -/
def Wf (cfg : Config) (st : SimState) : Prop :=
  0 < cfg.S ∧ 0 < cfg.K ∧ st.cache.length = cfg.S ∧ ∀ s ∈ st.cache, s.length = cfg.K

/-- Iterate access_data over a list of single-line addresses. -/
def run_accesses (cfg : Config) (st : SimState) (as : List Nat) : SimState :=
  as.foldl (fun s a => (access_data cfg s a).1) st

theorem getD_set_self {α : Type} {l : List α} {i : Nat} (x d : α) (h : i < l.length) :
    (l.set i x).getD i d = x := by
  simp [List.getD_eq_getElem?_getD, List.getElem?_set_eq_of_lt x h]

theorem getD_set_ne {α : Type} {l : List α} {i j : Nat} (hne : i ≠ j) (x d : α) :
    (l.set i x).getD j d = l.getD j d := by
  simp [List.getD_eq_getElem?_getD, List.getElem?_set_ne hne]

theorem getD_replicate {α : Type} {n : Nat} {a d : α} {i : Nat} (h : i < n) :
    (List.replicate n a).getD i d = a := by
  simp [List.getD_eq_getElem?_getD, List.getElem?_replicate, h]

theorem num_set_lt (cfg : Config) (a : Nat) (hS : 0 < cfg.S) : num_set cfg a < cfg.S :=
  lt_of_le_of_lt Nat.and_le_left (Nat.sub_lt hS Nat.one_pos)

/-- C1: for the configuration S = 2, K = 1, B = 1 produced by parse_arguments,
the set index of address 2 follows the claimed formula
(address >> blockOffsetBits) & (S - 1), but the tag of address 2 is
2 = address >> blockOffsetBits rather than the claimed
address >> (setIndexBits + blockOffsetBits) = 1: line 113 of the source
assigns INT_LOG2(S) to the dead local variable c, so S_temp stays 0. -/
theorem c1_tag_retains_set_bits :
    parse_arguments 2 1 1 "LRU" true =
      some { S := 2, K := 1, B := 1, policy := Policy.LRU, sTemp := 0, bTemp := 0 } ∧
    num_set { S := 2, K := 1, B := 1, policy := Policy.LRU, sTemp := 0, bTemp := 0 } 2 =
      (2 >>> INT_LOG2 1) &&& (2 - 1) ∧
    num_tag { S := 2, K := 1, B := 1, policy := Policy.LRU, sTemp := 0, bTemp := 0 } 2 = 2 ∧
    2 >>> (INT_LOG2 2 + INT_LOG2 1) = 1 := by
  refine ⟨by decide, by decide, by decide, by decide⟩

/-- C9: the configuration S = 1, K = 1, B = 3 with policy LRU and a readable
trace is accepted even though B = 3 is not a power of two (only S goes through
the NOT_POWER2 gate), and the trace is then replayed: main returns the
statistics instead of exiting nonzero before the core runs. -/
theorem c9_nonpow2_B_accepted :
    main_sim 1 1 3 "LRU" true (String.toList "L 0,1") = Except.ok (0, 1, 0) := by
  rfl

/-- C8: replaying the trace "L 10,1 / zz zz / L 20,1" stops at the malformed
second line, so only the first record is simulated (1 miss); without the
malformed line the same two well-formed records give 2 misses. The fscanf
loop in replay_trace exits on the first matching failure instead of skipping
the bad line. -/
theorem c8_malformed_line_stops_replay :
    statsOf (replay_trace ⟨1, 2, 1, Policy.LRU, 0, 0⟩
        (String.toList "L 10,1\nzz zz\nL 20,1")) = (0, 1, 0) ∧
    statsOf (replay_trace ⟨1, 2, 1, Policy.LRU, 0, 0⟩
        (String.toList "L 10,1\nL 20,1")) = (0, 2, 0) := by
  exact ⟨by rfl, by rfl⟩

/-- C5: with B = 4 an access of length B / 2 = 2 at the unaligned address 3
touches two cache lines, so the driver issues 2 accessLine calls (addresses 3
and 4), refuting the clause that an access of length B / 2 triggers exactly 1
call. -/
theorem c5_counterexample :
    lineAddrs 4 3 2 = [3, 4] ∧ ¬(lineAddrs 4 3 2).length = 1 := by
  refine ⟨by rfl, by decide⟩

/-- C3: with S = 1, K = 2, B = 1 and tags A = 0, B = 1, C = 2, D = 3 all in
set 0, after the accesses A, B, C, A the set holds tags C and A (the C access
already evicted A, and re-accessing A evicted B), so the subsequent D access
evicts the line holding tag C under LRU — not the line holding tag B, which
is no longer present; under FIFO the same fifth access also evicts tag C and
leaves tag A = 0 resident, so it does not evict A either. This refutes both
halves of the claim for the stated five-access sequence. -/
theorem c3_counterexample :
    (run_accesses ⟨1, 2, 1, Policy.LRU, 0, 0⟩
        (initState ⟨1, 2, 1, Policy.LRU, 0, 0⟩) [0, 1, 2, 0]).cache =
      [[⟨2, 4, true⟩, ⟨0, 5, true⟩]] ∧
    (run_accesses ⟨1, 2, 1, Policy.LRU, 0, 0⟩
        (initState ⟨1, 2, 1, Policy.LRU, 0, 0⟩) [0, 1, 2, 0, 3]).cache =
      [[⟨3, 6, true⟩, ⟨0, 5, true⟩]] ∧
    (run_accesses ⟨1, 2, 1, Policy.FIFO, 0, 0⟩
        (initState ⟨1, 2, 1, Policy.FIFO, 0, 0⟩) [0, 1, 2, 0, 3]).cache =
      [[⟨3, 6, true⟩, ⟨0, 5, true⟩]] := by
  refine ⟨by rfl, by rfl, by rfl⟩

/-- countBlock of line j of a set (0 for an out-of-range index). -/
def countAt (set : List BlockCache) (j : Nat) : Nat := (set.getD j default).countBlock

/-- The LRU victim fold over the first n indices, exposed for induction. -/
def lruFold (set : List BlockCache) (n : Nat) : Nat × Nat :=
  (List.range n).foldl
    (fun acc idx =>
      if acc.1 > (set.getD idx default).countBlock then
        ((set.getD idx default).countBlock, idx)
      else acc)
    ((set.getD 0 default).countBlock, 0)

theorem lruVictim_eq_fold (set : List BlockCache) :
    lruVictim set = (lruFold set set.length).2 := rfl

theorem lruFold_succ (set : List BlockCache) (n : Nat) :
    lruFold set (n + 1) =
      (if (lruFold set n).1 > (set.getD n default).countBlock then
        ((set.getD n default).countBlock, n)
      else lruFold set n) := by
  rw [lruFold, lruFold, List.range_succ, List.foldl_append]
  rfl

/-- The FIFO victim fold over the first n indices, exposed for induction. -/
def fifoFold (set : List BlockCache) (n : Nat) : Nat :=
  (List.range n).foldl
    (fun recent idx =>
      if (set.getD recent default).countBlock > (set.getD idx default).countBlock then idx
      else recent)
    0

theorem fifoVictim_eq_fold (set : List BlockCache) :
    fifoVictim set = fifoFold set set.length := rfl

theorem fifoFold_succ (set : List BlockCache) (n : Nat) :
    fifoFold set (n + 1) =
      (if (set.getD (fifoFold set n) default).countBlock > (set.getD n default).countBlock then n
      else fifoFold set n) := by
  rw [fifoFold, fifoFold, List.range_succ, List.foldl_append]
  rfl

theorem lruFold_inv (set : List BlockCache) :
    ∀ n, 1 ≤ n →
      (lruFold set n).2 < n ∧
      (lruFold set n).1 = countAt set (lruFold set n).2 ∧
      (∀ j < n, (lruFold set n).1 ≤ countAt set j) ∧
      (∀ j < (lruFold set n).2, (lruFold set n).1 < countAt set j) := by
  intro n
  induction n with
  | zero => omega
  | succ n ih =>
    intro _
    by_cases hn : 1 ≤ n
    · obtain ⟨h1, h2, h3, h4⟩ := ih hn
      rw [lruFold_succ]
      by_cases hlt : (lruFold set n).1 > (set.getD n default).countBlock
      · simp only [hlt, if_pos]
        refine ⟨Nat.lt_succ_self n, rfl, ?_, ?_⟩
        · intro j hj
          rcases Nat.lt_succ_iff_lt_or_eq.mp hj with hj' | hj'
          · exact le_of_lt (lt_of_lt_of_le hlt (h3 j hj'))
          · subst hj'; exact le_refl _
        · intro j hj
          exact lt_of_lt_of_le hlt (h3 j hj)
      · simp only [hlt, if_neg, not_false_iff]
        refine ⟨Nat.lt_succ_of_lt h1, h2, ?_, h4⟩
        intro j hj
        rcases Nat.lt_succ_iff_lt_or_eq.mp hj with hj' | hj'
        · exact h3 j hj'
        · subst hj'; exact le_of_not_lt hlt
    · have hn0 : n = 0 := by omega
      subst hn0
      rw [lruFold_succ]
      have : ¬ (lruFold set 0).1 > (set.getD 0 default).countBlock := by
        simp [lruFold, List.range_zero]
      simp only [this, if_neg, not_false_iff]
      refine ⟨Nat.zero_lt_one, ?_, ?_, ?_⟩
      · simp [lruFold, List.range_zero, countAt]
      · intro j hj
        have : j = 0 := by omega
        subst this
        simp [lruFold, List.range_zero, countAt]
      · intro j hj
        have : (lruFold set 0).2 = 0 := by simp [lruFold, List.range_zero]
        omega

theorem fifoFold_inv (set : List BlockCache) :
    ∀ n, 1 ≤ n →
      fifoFold set n < n ∧
      (∀ j < n, countAt set (fifoFold set n) ≤ countAt set j) ∧
      (∀ j < fifoFold set n, countAt set (fifoFold set n) < countAt set j) := by
  intro n
  induction n with
  | zero => omega
  | succ n ih =>
    intro _
    by_cases hn : 1 ≤ n
    · obtain ⟨h1, h2, h3⟩ := ih hn
      rw [fifoFold_succ]
      by_cases hlt :
          (set.getD (fifoFold set n) default).countBlock > (set.getD n default).countBlock
      · simp only [hlt, if_pos]
        refine ⟨Nat.lt_succ_self n, ?_, ?_⟩
        · intro j hj
          rcases Nat.lt_succ_iff_lt_or_eq.mp hj with hj' | hj'
          · exact le_of_lt (lt_of_lt_of_le hlt (h2 j hj'))
          · subst hj'; exact le_refl _
        · intro j hj
          exact lt_of_lt_of_le hlt (h2 j hj)
      · simp only [hlt, if_neg, not_false_iff]
        refine ⟨Nat.lt_succ_of_lt h1, ?_, h3⟩
        intro j hj
        rcases Nat.lt_succ_iff_lt_or_eq.mp hj with hj' | hj'
        · exact h2 j hj'
        · subst hj'; exact le_of_not_lt hlt
    · have hn0 : n = 0 := by omega
      subst hn0
      rw [fifoFold_succ]
      have hz : fifoFold set 0 = 0 := by simp [fifoFold, List.range_zero]
      rw [hz]
      have : ¬ (set.getD 0 default).countBlock > (set.getD 0 default).countBlock := lt_irrefl _
      simp only [this, if_neg, not_false_iff]
      refine ⟨Nat.zero_lt_one, ?_, ?_⟩
      · intro j hj
        have : j = 0 := by omega
        subst this
        exact le_refl _
      · omega

theorem scanIdx_eq_none_iff {α : Type} {p : α → Bool} {l : List α} :
    scanIdx p l = none ↔ ∀ x ∈ l, p x = false := by
  induction l with
  | nil => simp [scanIdx]
  | cons x xs ih =>
    by_cases h : p x
    · simp [scanIdx, h]
    · simp [scanIdx, h, ih]

theorem getD_mem {α : Type} {l : List α} {j : Nat} (h : j < l.length) (d : α) :
    l.getD j d ∈ l := by
  rw [List.getD_eq_getElem?_getD, List.getElem?_eq_getElem h]
  simp [List.getElem_mem h]

theorem scanIdx_set_of_none {α : Type} {p : α → Bool} {l : List α}
    (hnone : scanIdx p l = none) {x : α} (hx : p x = true) :
    ∀ j, j < l.length → scanIdx p (l.set j x) = some j := by
  induction l with
  | nil => intro j hj; simp at hj
  | cons y ys ih =>
    have hy : p y = false := (scanIdx_eq_none_iff.mp hnone) y (List.mem_cons_self y ys)
    have hys : scanIdx p ys = none := by
      rw [scanIdx_eq_none_iff]
      intro z hz
      exact (scanIdx_eq_none_iff.mp hnone) z (List.mem_cons_of_mem y hz)
    intro j hj
    cases j with
    | zero => simp [scanIdx, hx]
    | succ j =>
      have hj' : j < ys.length := by simpa using hj
      simp [List.set_cons_succ, scanIdx, hy, ih hys j hj']

theorem setAt_length (cfg : Config) (st : SimState) (a : Nat) (hwf : Wf cfg st) :
    (st.cache.getD (num_set cfg a) []).length = cfg.K := by
  obtain ⟨hS, hK, hlen, hmem⟩ := hwf
  have hi : num_set cfg a < st.cache.length := by rw [hlen]; exact num_set_lt cfg a hS
  exact hmem _ (getD_mem hi [])

theorem findFree_none_valid {set : List BlockCache} (h : findFree set = none) :
    ∀ j < set.length, (set.getD j default).validBits = true := by
  intro j hj
  have := (scanIdx_eq_none_iff.mp h) (set.getD j default) (getD_mem hj default)
  simpa using this

theorem lruVictim_spec (set : List BlockCache) (h : set ≠ []) :
    lruVictim set < set.length ∧
    (∀ j < set.length, countAt set (lruVictim set) ≤ countAt set j) ∧
    (∀ j < lruVictim set, countAt set (lruVictim set) < countAt set j) := by
  have hn : 1 ≤ set.length := List.length_pos.mpr h
  obtain ⟨h1, h2, h3, h4⟩ := lruFold_inv set set.length hn
  rw [lruVictim_eq_fold]
  refine ⟨h1, ?_, ?_⟩
  · intro j hj; rw [← h2]; exact h3 j hj
  · intro j hj; rw [← h2]; exact h4 j hj

theorem fifoVictim_spec (set : List BlockCache) (h : set ≠ []) :
    fifoVictim set < set.length ∧
    (∀ j < set.length, countAt set (fifoVictim set) ≤ countAt set j) ∧
    (∀ j < fifoVictim set, countAt set (fifoVictim set) < countAt set j) := by
  have hn : 1 ≤ set.length := List.length_pos.mpr h
  obtain ⟨h1, h2, h3⟩ := fifoFold_inv set set.length hn
  rw [fifoVictim_eq_fold]
  exact ⟨h1, h2, h3⟩

/-- The victim slot access_data overwrites on a miss in a full set, per policy. -/
def victimOf (cfg : Config) (set : List BlockCache) : Nat :=
  match cfg.policy with
  | Policy.LRU => lruVictim set
  | Policy.FIFO => fifoVictim set

/-- The clock whose bumped value is written by access_data, per policy. -/
def clockOf (cfg : Config) (st : SimState) : Nat :=
  match cfg.policy with
  | Policy.LRU => st.num_lru
  | Policy.FIFO => st.num_fifo

/-- C2: on a miss (no matching valid line) in a set with no invalid line, for
either policy, access_data overwrites exactly the victim slot, and that victim
has the smallest countBlock in the set, with the lowest slot index winning
ties (every slot before the victim has a strictly larger countBlock). -/
theorem c2_full_miss_evicts_least_order (cfg : Config) (st : SimState) (a : Nat)
    (hwf : Wf cfg st)
    (hmiss : findHit (st.cache.getD (num_set cfg a) []) (num_tag cfg a) = none)
    (hfull : findFree (st.cache.getD (num_set cfg a) []) = none) :
    victimOf cfg (st.cache.getD (num_set cfg a) []) < cfg.K ∧
    (∀ j < cfg.K,
      countAt (st.cache.getD (num_set cfg a) [])
          (victimOf cfg (st.cache.getD (num_set cfg a) [])) ≤
        countAt (st.cache.getD (num_set cfg a) []) j) ∧
    (∀ j < victimOf cfg (st.cache.getD (num_set cfg a) []),
      countAt (st.cache.getD (num_set cfg a) [])
          (victimOf cfg (st.cache.getD (num_set cfg a) [])) <
        countAt (st.cache.getD (num_set cfg a) []) j) ∧
    (access_data cfg st a).1.cache =
      st.cache.set (num_set cfg a)
        ((st.cache.getD (num_set cfg a) []).set
          (victimOf cfg (st.cache.getD (num_set cfg a) []))
          ⟨num_tag cfg a, bump (clockOf cfg st), true⟩) ∧
    (access_data cfg st a).2 = AccessResult.MISSEVICTION := by
  have hlen := setAt_length cfg st a hwf
  have hKpos := hwf.2.1
  have hne : st.cache.getD (num_set cfg a) [] ≠ [] := by
    rw [← List.length_pos, hlen]; exact hKpos
  cases hp : cfg.policy with
  | LRU =>
    obtain ⟨h1, h2, h3⟩ := lruVictim_spec (st.cache.getD (num_set cfg a) []) hne
    have hval := findFree_none_valid hfull _ h1
    have hvic : victimOf cfg (st.cache.getD (num_set cfg a) []) =
        lruVictim (st.cache.getD (num_set cfg a) []) := by
      simp [victimOf, hp]
    have hclk : clockOf cfg st = st.num_lru := by simp [clockOf, hp]
    rw [hvic, hclk]
    refine ⟨by omega, fun j hj => h2 j (by omega), h3, ?_, ?_⟩
    · simp only [access_data, hp, hmiss, hfull]
      rw [show ({ (st.cache.getD (num_set cfg a) []).getD
            (lruVictim (st.cache.getD (num_set cfg a) [])) default with
          tagBits := num_tag cfg a, countBlock := bump st.num_lru } : BlockCache) =
          ⟨num_tag cfg a, bump st.num_lru,
            ((st.cache.getD (num_set cfg a) []).getD
              (lruVictim (st.cache.getD (num_set cfg a) [])) default).validBits⟩ from rfl]
      rw [hval]
    · simp only [access_data, hp, hmiss, hfull]
  | FIFO =>
    obtain ⟨h1, h2, h3⟩ := fifoVictim_spec (st.cache.getD (num_set cfg a) []) hne
    have hvic : victimOf cfg (st.cache.getD (num_set cfg a) []) =
        fifoVictim (st.cache.getD (num_set cfg a) []) := by
      simp [victimOf, hp]
    have hclk : clockOf cfg st = st.num_fifo := by simp [clockOf, hp]
    rw [hvic, hclk]
    refine ⟨by omega, fun j hj => h2 j (by omega), h3, ?_, ?_⟩
    · simp only [access_data, hp, hmiss, hfull]
    · simp only [access_data, hp, hmiss, hfull]

/-- Concrete configuration used by witnesses: S = 1, K = 2, B = 1, LRU. -/
def cfgW2 : Config := ⟨1, 2, 1, Policy.LRU, 0, 0⟩

/-- Concrete full-set state used by the C2 witness. -/
def stW2 : SimState := ⟨[[⟨5, 7, true⟩, ⟨6, 7, true⟩]], 1, 9, 0, 0, 0⟩

/-- Witness for C2 at a concrete input: a miss on tag 4 in the full set with
countBlocks (7, 7) evicts slot 0 (the tie goes to the lowest index). -/
theorem c2_full_miss_evicts_least_order_witness :
    (Wf cfgW2 stW2 ∧
      findHit (stW2.cache.getD (num_set cfgW2 4) []) (num_tag cfgW2 4) = none ∧
      findFree (stW2.cache.getD (num_set cfgW2 4) []) = none) ∧
    (victimOf cfgW2 (stW2.cache.getD (num_set cfgW2 4) []) < cfgW2.K ∧
      (∀ j < cfgW2.K,
        countAt (stW2.cache.getD (num_set cfgW2 4) [])
            (victimOf cfgW2 (stW2.cache.getD (num_set cfgW2 4) [])) ≤
          countAt (stW2.cache.getD (num_set cfgW2 4) []) j) ∧
      (∀ j < victimOf cfgW2 (stW2.cache.getD (num_set cfgW2 4) []),
        countAt (stW2.cache.getD (num_set cfgW2 4) [])
            (victimOf cfgW2 (stW2.cache.getD (num_set cfgW2 4) [])) <
          countAt (stW2.cache.getD (num_set cfgW2 4) []) j) ∧
      (access_data cfgW2 stW2 4).1.cache =
        stW2.cache.set (num_set cfgW2 4)
          ((stW2.cache.getD (num_set cfgW2 4) []).set
            (victimOf cfgW2 (stW2.cache.getD (num_set cfgW2 4) []))
            ⟨num_tag cfgW2 4, bump (clockOf cfgW2 stW2), true⟩) ∧
      (access_data cfgW2 stW2 4).2 = AccessResult.MISSEVICTION) := by
  have hwf : Wf cfgW2 stW2 := by unfold Wf; decide
  have hmiss : findHit (stW2.cache.getD (num_set cfgW2 4) []) (num_tag cfgW2 4) = none := by
    decide
  have hfull : findFree (stW2.cache.getD (num_set cfgW2 4) []) = none := by decide
  exact ⟨⟨hwf, hmiss, hfull⟩,
    c2_full_miss_evicts_least_order cfgW2 stW2 4 hwf hmiss hfull⟩

theorem scanIdx_some_lt {α : Type} {p : α → Bool} {l : List α} {j : Nat}
    (h : scanIdx p l = some j) : j < l.length := by
  induction l generalizing j with
  | nil => simp [scanIdx] at h
  | cons x xs ih =>
    by_cases hx : p x
    · simp [scanIdx, hx] at h
      simp only [List.length_cons]
      omega
    · simp [scanIdx, hx] at h
      obtain ⟨m, hm, hmj⟩ := h
      have := ih hm
      simp only [List.length_cons]
      omega

/-- On a miss, access_data writes the line (tag, bumped clock, valid) into some
slot j of the target set and bumps the miss counter; the outcome is not HIT. -/
theorem access_miss_shape (cfg : Config) (st : SimState) (a : Nat)
    (hwf : Wf cfg st)
    (habs : findHit (st.cache.getD (num_set cfg a) []) (num_tag cfg a) = none) :
    ∃ j < cfg.K,
      (access_data cfg st a).1.cache =
        st.cache.set (num_set cfg a)
          ((st.cache.getD (num_set cfg a) []).set j
            ⟨num_tag cfg a, bump (clockOf cfg st), true⟩) ∧
      (access_data cfg st a).1.miss_count = st.miss_count + 1 ∧
      (access_data cfg st a).1.hit_count = st.hit_count ∧
      (access_data cfg st a).2 ≠ AccessResult.HIT := by
  have hlen := setAt_length cfg st a hwf
  cases hfree : findFree (st.cache.getD (num_set cfg a) []) with
  | some inv =>
    refine ⟨inv, ?_, ?_⟩
    · rw [← hlen]; exact scanIdx_some_lt hfree
    · cases hp : cfg.policy with
      | LRU =>
        simp only [access_data, hp, habs, hfree, clockOf]
        exact ⟨trivial, trivial, trivial, by decide⟩
      | FIFO =>
        simp only [access_data, hp, habs, hfree, clockOf]
        exact ⟨trivial, trivial, trivial, by decide⟩
  | none =>
    have hne : st.cache.getD (num_set cfg a) [] ≠ [] := by
      rw [← List.length_pos, hlen]; exact hwf.2.1
    cases hp : cfg.policy with
    | LRU =>
      obtain ⟨h1, h2, h3⟩ := lruVictim_spec (st.cache.getD (num_set cfg a) []) hne
      have hval := findFree_none_valid hfree _ h1
      refine ⟨lruVictim (st.cache.getD (num_set cfg a) []), by omega, ?_⟩
      simp only [access_data, hp, habs, hfree, clockOf]
      refine ⟨?_, trivial, trivial, by decide⟩
      rw [show ({ (st.cache.getD (num_set cfg a) []).getD
            (lruVictim (st.cache.getD (num_set cfg a) [])) default with
          tagBits := num_tag cfg a, countBlock := bump st.num_lru } : BlockCache) =
          ⟨num_tag cfg a, bump st.num_lru,
            ((st.cache.getD (num_set cfg a) []).getD
              (lruVictim (st.cache.getD (num_set cfg a) [])) default).validBits⟩ from rfl]
      rw [hval]
    | FIFO =>
      obtain ⟨h1, h2, h3⟩ := fifoVictim_spec (st.cache.getD (num_set cfg a) []) hne
      refine ⟨fifoVictim (st.cache.getD (num_set cfg a) []), by omega, ?_⟩
      simp only [access_data, hp, habs, hfree, clockOf]
      exact ⟨trivial, trivial, trivial, by decide⟩

/-- On a hit, access_data reports HIT, bumps the hit counter and leaves the
miss counter alone. -/
theorem access_hit_shape (cfg : Config) (st : SimState) (a : Nat) (j : Nat)
    (hfind : findHit (st.cache.getD (num_set cfg a) []) (num_tag cfg a) = some j) :
    (access_data cfg st a).2 = AccessResult.HIT ∧
    (access_data cfg st a).1.hit_count = st.hit_count + 1 ∧
    (access_data cfg st a).1.miss_count = st.miss_count := by
  cases hp : cfg.policy with
  | LRU => simp only [access_data, hp, hfind]; exact ⟨trivial, trivial, trivial⟩
  | FIFO => simp only [access_data, hp, hfind]; exact ⟨trivial, trivial, trivial⟩

/-- C4: replaying a Modify record issues two consecutive access_data calls on
the selected address, and when that address's line is absent from the cache
the first call is a miss (never a hit) and the second call is always a hit:
exactly 1 miss followed by 1 hit is accumulated, never 2 misses. -/
theorem c4_modify_one_miss_one_hit (cfg : Config) (st : SimState) (a : Nat)
    (hwf : Wf cfg st)
    (habs : findHit (st.cache.getD (num_set cfg a) []) (num_tag cfg a) = none) :
    (access_data cfg st a).2 ≠ AccessResult.HIT ∧
    (access_data cfg (access_data cfg st a).1 a).2 = AccessResult.HIT ∧
    (access_data cfg (access_data cfg st a).1 a).1.miss_count = st.miss_count + 1 ∧
    (access_data cfg (access_data cfg st a).1 a).1.hit_count = st.hit_count + 1 ∧
    replay_record cfg st ⟨'M', a, 1⟩ = (access_data cfg (access_data cfg st a).1 a).1 := by
  obtain ⟨j, hj, hcache, hm, hh, hnot⟩ := access_miss_shape cfg st a hwf habs
  have hi : num_set cfg a < st.cache.length := by
    rw [hwf.2.2.1]; exact num_set_lt cfg a hwf.1
  have hjlen : j < (st.cache.getD (num_set cfg a) []).length := by
    rw [setAt_length cfg st a hwf]; exact hj
  have hset1 : (access_data cfg st a).1.cache.getD (num_set cfg a) [] =
      (st.cache.getD (num_set cfg a) []).set j
        ⟨num_tag cfg a, bump (clockOf cfg st), true⟩ := by
    rw [hcache]; exact getD_set_self _ _ hi
  have hfind : findHit ((access_data cfg st a).1.cache.getD (num_set cfg a) [])
      (num_tag cfg a) = some j := by
    rw [hset1]
    exact scanIdx_set_of_none habs (by simp) j hjlen
  obtain ⟨r1, r2, r3⟩ := access_hit_shape cfg (access_data cfg st a).1 a j hfind
  refine ⟨hnot, r1, ?_, ?_, ?_⟩
  · rw [r3, hm]
  · rw [r2, hh]
  · rfl

/-- Witness for C4 at a concrete input: a Modify of the absent address 4 in
the empty 1-set 2-way cache yields a non-hit then a hit, 1 miss and 1 hit. -/
theorem c4_modify_one_miss_one_hit_witness :
    (Wf cfgW2 (initState cfgW2) ∧
      findHit ((initState cfgW2).cache.getD (num_set cfgW2 4) [])
        (num_tag cfgW2 4) = none) ∧
    ((access_data cfgW2 (initState cfgW2) 4).2 ≠ AccessResult.HIT ∧
      (access_data cfgW2 (access_data cfgW2 (initState cfgW2) 4).1 4).2 =
        AccessResult.HIT ∧
      (access_data cfgW2 (access_data cfgW2 (initState cfgW2) 4).1 4).1.miss_count =
        (initState cfgW2).miss_count + 1 ∧
      (access_data cfgW2 (access_data cfgW2 (initState cfgW2) 4).1 4).1.hit_count =
        (initState cfgW2).hit_count + 1 ∧
      replay_record cfgW2 (initState cfgW2) ⟨'M', 4, 1⟩ =
        (access_data cfgW2 (access_data cfgW2 (initState cfgW2) 4).1 4).1) := by
  have hwf : Wf cfgW2 (initState cfgW2) := by unfold Wf; decide
  have habs : findHit ((initState cfgW2).cache.getD (num_set cfgW2 4) [])
      (num_tag cfgW2 4) = none := by decide
  exact ⟨⟨hwf, habs⟩, c4_modify_one_miss_one_hit cfgW2 (initState cfgW2) 4 hwf habs⟩

/-- access_data either leaves the cache list untouched or rewrites one slot of
the target set. -/
theorem access_cache_cases (cfg : Config) (st : SimState) (a : Nat) :
    (access_data cfg st a).1.cache = st.cache ∨
    ∃ j x, (access_data cfg st a).1.cache =
      st.cache.set (num_set cfg a) ((st.cache.getD (num_set cfg a) []).set j x) := by
  cases hp : cfg.policy with
  | LRU =>
    cases hh : findHit (st.cache.getD (num_set cfg a) []) (num_tag cfg a) with
    | some j =>
      right
      simp only [access_data, hp, hh]
      exact ⟨j, _, rfl⟩
    | none =>
      cases hf : findFree (st.cache.getD (num_set cfg a) []) with
      | some inv =>
        right
        simp only [access_data, hp, hh, hf]
        exact ⟨inv, _, rfl⟩
      | none =>
        right
        simp only [access_data, hp, hh, hf]
        exact ⟨lruVictim (st.cache.getD (num_set cfg a) []), _, rfl⟩
  | FIFO =>
    cases hh : findHit (st.cache.getD (num_set cfg a) []) (num_tag cfg a) with
    | some j =>
      left
      simp only [access_data, hp, hh]
    | none =>
      cases hf : findFree (st.cache.getD (num_set cfg a) []) with
      | some inv =>
        right
        simp only [access_data, hp, hh, hf]
        exact ⟨inv, _, rfl⟩
      | none =>
        right
        simp only [access_data, hp, hh, hf]
        exact ⟨fifoVictim (st.cache.getD (num_set cfg a) []), _, rfl⟩

/-- Shape well-formedness is preserved by every access. -/
theorem access_wf (cfg : Config) (st : SimState) (a : Nat) (hwf : Wf cfg st) :
    Wf cfg (access_data cfg st a).1 := by
  obtain ⟨hS, hK, hlen, hmem⟩ := hwf
  rcases access_cache_cases cfg st a with h | ⟨j, x, h⟩
  · exact ⟨hS, hK, by rw [h]; exact hlen, by rw [h]; exact hmem⟩
  · refine ⟨hS, hK, ?_, ?_⟩
    · rw [h, List.length_set]; exact hlen
    · rw [h]
      intro s hs
      rcases List.mem_or_eq_of_mem_set hs with hs' | hs'
      · exact hmem s hs'
      · subst hs'
        rw [List.length_set]
        exact setAt_length cfg st a ⟨hS, hK, hlen, hmem⟩

theorem scanIdx_set_congr {α : Type} {p : α → Bool} (l : List α) (j : Nat) (x d : α)
    (h : p x = p (l.getD j d)) : scanIdx p (l.set j x) = scanIdx p l := by
  induction l generalizing j with
  | nil => rfl
  | cons y ys ih =>
    cases j with
    | zero =>
      have h0 : p x = p y := by simpa using h
      simp [scanIdx, h0]
    | succ j =>
      have h' : p x = p (ys.getD j d) := by simpa using h
      simp only [List.set_cons_succ, scanIdx, ih j h']

/-- A hit keeps the matched line findable at the same slot and only bumps the
hit counter. -/
theorem access_hit_keeps (cfg : Config) (st : SimState) (a : Nat) (j : Nat)
    (hwf : Wf cfg st)
    (hfind : findHit (st.cache.getD (num_set cfg a) []) (num_tag cfg a) = some j) :
    findHit ((access_data cfg st a).1.cache.getD (num_set cfg a) [])
      (num_tag cfg a) = some j ∧
    (access_data cfg st a).1.hit_count = st.hit_count + 1 ∧
    (access_data cfg st a).1.miss_count = st.miss_count ∧
    (access_data cfg st a).1.eviction_count = st.eviction_count := by
  have hi : num_set cfg a < st.cache.length := by
    rw [hwf.2.2.1]; exact num_set_lt cfg a hwf.1
  cases hp : cfg.policy with
  | FIFO =>
    simp only [access_data, hp, hfind]
    exact ⟨trivial, trivial, trivial, trivial⟩
  | LRU =>
    have hcongr : findHit ((st.cache.getD (num_set cfg a) []).set j
        ({ (st.cache.getD (num_set cfg a) []).getD j default with
            countBlock := bump st.num_lru })) (num_tag cfg a) =
        findHit (st.cache.getD (num_set cfg a) []) (num_tag cfg a) :=
      scanIdx_set_congr _ j _ default rfl
    simp only [access_data, hp, hfind]
    refine ⟨?_, trivial, trivial, trivial⟩
    rw [getD_set_self _ _ hi]
    exact hcongr.trans hfind

theorem initState_wf (cfg : Config) (hS : 0 < cfg.S) (hK : 0 < cfg.K) :
    Wf cfg (initState cfg) := by
  refine ⟨hS, hK, ?_, ?_⟩
  · simp [initState, allocate_cache]
  · intro s hs
    simp only [initState, allocate_cache] at hs
    rw [List.eq_of_mem_replicate hs]
    simp

theorem initState_setAt (cfg : Config) (a : Nat) (hS : 0 < cfg.S) :
    (initState cfg).cache.getD (num_set cfg a) [] =
      List.replicate cfg.K ⟨0, 0, false⟩ := by
  have hi : num_set cfg a < cfg.S := num_set_lt cfg a hS
  simp only [initState, allocate_cache]
  exact getD_replicate hi

theorem findHit_init (cfg : Config) (a : Nat) (hS : 0 < cfg.S) :
    findHit ((initState cfg).cache.getD (num_set cfg a) []) (num_tag cfg a) = none := by
  rw [initState_setAt cfg a hS]
  exact scanIdx_eq_none_iff.mpr (fun x hx => by rw [List.eq_of_mem_replicate hx]; simp)

theorem findFree_init (cfg : Config) (a : Nat) (hS : 0 < cfg.S) (hK : 0 < cfg.K) :
    findFree ((initState cfg).cache.getD (num_set cfg a) []) = some 0 := by
  rw [initState_setAt cfg a hS]
  obtain ⟨k, hk⟩ : ∃ k, cfg.K = k + 1 := ⟨cfg.K - 1, by omega⟩
  rw [hk, List.replicate_succ]
  simp [findFree, scanIdx]

theorem access_evict_of_free (cfg : Config) (st : SimState) (a : Nat) (inv : Nat)
    (habs : findHit (st.cache.getD (num_set cfg a) []) (num_tag cfg a) = none)
    (hfree : findFree (st.cache.getD (num_set cfg a) []) = some inv) :
    (access_data cfg st a).1.eviction_count = st.eviction_count := by
  cases hp : cfg.policy with
  | LRU => simp only [access_data, hp, habs, hfree]
  | FIFO => simp only [access_data, hp, habs, hfree]

/-- The first access to any address from the freshly allocated cache misses
without eviction, and leaves the line findable. -/
theorem access_init_summary (cfg : Config) (a : Nat) (hS : 0 < cfg.S) (hK : 0 < cfg.K) :
    ∃ j, findHit ((access_data cfg (initState cfg) a).1.cache.getD (num_set cfg a) [])
        (num_tag cfg a) = some j ∧
      (access_data cfg (initState cfg) a).1.miss_count = 1 ∧
      (access_data cfg (initState cfg) a).1.hit_count = 0 ∧
      (access_data cfg (initState cfg) a).1.eviction_count = 0 ∧
      Wf cfg (access_data cfg (initState cfg) a).1 := by
  have hwf0 := initState_wf cfg hS hK
  have habs := findHit_init cfg a hS
  obtain ⟨j, hj, hcache, hm, hh, _⟩ := access_miss_shape cfg (initState cfg) a hwf0 habs
  have hi : num_set cfg a < (initState cfg).cache.length := by
    rw [hwf0.2.2.1]; exact num_set_lt cfg a hS
  have hjlen : j < ((initState cfg).cache.getD (num_set cfg a) []).length := by
    rw [setAt_length cfg (initState cfg) a hwf0]; exact hj
  refine ⟨j, ?_, ?_, ?_, ?_, access_wf cfg (initState cfg) a hwf0⟩
  · rw [hcache, getD_set_self _ _ hi]
    exact scanIdx_set_of_none habs (by simp) j hjlen
  · rw [hm]; rfl
  · rw [hh]; rfl
  · rw [access_evict_of_free cfg (initState cfg) a 0 habs (findFree_init cfg a hS hK)]
    rfl

theorem run_hits (cfg : Config) (a : Nat) :
    ∀ (n : Nat) (st : SimState), Wf cfg st →
      (∃ j, findHit (st.cache.getD (num_set cfg a) []) (num_tag cfg a) = some j) →
      (run_accesses cfg st (List.replicate n a)).hit_count = st.hit_count + n ∧
      (run_accesses cfg st (List.replicate n a)).miss_count = st.miss_count ∧
      (run_accesses cfg st (List.replicate n a)).eviction_count = st.eviction_count := by
  intro n
  induction n with
  | zero =>
    intro st hwf hpres
    simp [run_accesses]
  | succ n ih =>
    rintro st hwf ⟨j, hj⟩
    obtain ⟨f1, f2, f3, f4⟩ := access_hit_keeps cfg st a j hwf hj
    have hwf' := access_wf cfg st a hwf
    have step : run_accesses cfg st (List.replicate (n + 1) a) =
        run_accesses cfg (access_data cfg st a).1 (List.replicate n a) := by
      rw [List.replicate_succ]; rfl
    rw [step]
    obtain ⟨g1, g2, g3⟩ := ih (access_data cfg st a).1 hwf' ⟨j, f1⟩
    refine ⟨?_, ?_, ?_⟩
    · rw [g1, f2]; omega
    · rw [g2, f3]
    · rw [g3, f4]

/-- C6: replaying the same single-line address N >= 1 times from the empty
cache yields exactly 1 miss, N - 1 hits and 0 evictions, for any positive
geometry and either policy. -/
theorem c6_repeat_single_address (cfg : Config) (N : Nat) (hN : 1 ≤ N)
    (hS : 0 < cfg.S) (hK : 0 < cfg.K) (a : Nat) :
    (run_accesses cfg (initState cfg) (List.replicate N a)).miss_count = 1 ∧
    (run_accesses cfg (initState cfg) (List.replicate N a)).hit_count = N - 1 ∧
    (run_accesses cfg (initState cfg) (List.replicate N a)).eviction_count = 0 := by
  obtain ⟨n, rfl⟩ : ∃ n, N = n + 1 := ⟨N - 1, by omega⟩
  obtain ⟨j, h1, h2, h3, h4, hwf1⟩ := access_init_summary cfg a hS hK
  have step : run_accesses cfg (initState cfg) (List.replicate (n + 1) a) =
      run_accesses cfg (access_data cfg (initState cfg) a).1 (List.replicate n a) := by
    rw [List.replicate_succ]; rfl
  rw [step]
  obtain ⟨g1, g2, g3⟩ :=
    run_hits cfg a n (access_data cfg (initState cfg) a).1 hwf1 ⟨j, h1⟩
  refine ⟨?_, ?_, ?_⟩
  · rw [g2, h2]
  · rw [g1, h3]; omega
  · rw [g3, h4]

/-- Witness for C6 at a concrete input: address 9 repeated 3 times in the
1-set 2-way LRU cache gives 1 miss, 2 hits, 0 evictions. -/
theorem c6_repeat_single_address_witness :
    (1 ≤ 3 ∧ 0 < cfgW2.S ∧ 0 < cfgW2.K) ∧
    ((run_accesses cfgW2 (initState cfgW2) (List.replicate 3 9)).miss_count = 1 ∧
      (run_accesses cfgW2 (initState cfgW2) (List.replicate 3 9)).hit_count = 3 - 1 ∧
      (run_accesses cfgW2 (initState cfgW2) (List.replicate 3 9)).eviction_count = 0) :=
  ⟨⟨by decide, by decide, by decide⟩,
    c6_repeat_single_address cfgW2 3 (by decide) (by decide) (by decide) 9⟩

/-- A B-aligned block segment [c, c + m) with m <= B contributes exactly its
aligned head to the selected addresses of a record at address a <= c. -/
theorem filter_block (B a c m : Nat) (hB : 0 < B) (hc : c % B = 0) (hac : a ≤ c)
    (hm : 1 ≤ m) (hmB : m ≤ B) :
    (List.range' c m).filter (fun idx => idx == a || idx % B == 0) = [c] := by
  obtain ⟨m', hm'⟩ : ∃ m', m = m' + 1 := ⟨m - 1, by omega⟩
  subst hm'
  rw [List.range'_succ, List.filter_cons]
  have hhead : ((c == a || c % B == 0) = true) := by
    simp [hc]
  rw [if_pos hhead]
  have htail : (List.range' (c + 1) m').filter (fun idx => idx == a || idx % B == 0) = [] := by
    rw [List.filter_eq_nil_iff]
    intro x hx
    rw [List.mem_range'_1] at hx
    simp only [Bool.or_eq_true, beq_iff_eq, not_or]
    constructor
    · omega
    · have hxa : x % B = (x - c) % B := by
        conv_lhs => rw [show x = c + (x - c) by omega]
        simp [Nat.add_mod, hc]
      rw [hxa, Nat.mod_eq_of_lt (by omega)]
      omega
  rw [htail]

/-- C5 (amended): for records of length n >= 1 whose byte range does not wrap
around 2^64, the selected addresses are exactly the idx in [a, a + n) with
idx = a or idx aligned to B; an access of length 2B from a B-aligned address
selects exactly 2 addresses, and an access of length B / 2 from a B-aligned
address (B >= 2) selects exactly 1. -/
theorem c5_line_splitting (B a n : Nat) (hB : 0 < B) (hn : 1 ≤ n)
    (hwrap : a + n < 2 ^ 64) :
    lineAddrs B a n =
      (List.range' a n).filter (fun idx => idx == a || idx % B == 0) ∧
    (a % B = 0 → n = 2 * B → (lineAddrs B a n).length = 2) ∧
    (a % B = 0 → 2 ≤ B → n = B / 2 → (lineAddrs B a n).length = 1) := by
  have hmain : lineAddrs B a n =
      (List.range' a n).filter (fun idx => idx == a || idx % B == 0) := by
    rcases Nat.lt_or_ge 1 n with h | h
    · rw [lineAddrs, if_pos h, Nat.mod_eq_of_lt hwrap, Nat.add_sub_cancel_left]
    · have hn1 : n = 1 := by omega
      subst hn1
      rw [lineAddrs, if_neg (by omega)]
      rw [List.range'_succ]
      simp [List.filter]
  refine ⟨hmain, ?_, ?_⟩
  · intro ha h2B
    subst h2B
    rw [hmain]
    have hsplit : List.range' a (2 * B) = List.range' a B ++ List.range' (a + B) B := by
      have h2 : 2 * B = B + B := by omega
      rw [h2]
      have := List.range'_append a B B 1
      simp only [Nat.one_mul] at this
      rw [← this]
    rw [hsplit, List.filter_append]
    rw [filter_block B a a B hB ha (le_refl a) hB (le_refl B)]
    rw [filter_block B a (a + B) B hB (by simp [Nat.add_mod, ha]) (by omega) hB (le_refl B)]
    rfl
  · intro ha hB2 hn2
    subst hn2
    rw [hmain]
    rw [filter_block B a a (B / 2) hB ha (le_refl a) (by omega) (by omega)]
    rfl

/-- Witness for C5 (amended) at a concrete input: B = 4, a = 8, n = 8 = 2B. -/
theorem c5_line_splitting_witness :
    (0 < 4 ∧ 1 ≤ 8 ∧ 8 + 8 < 2 ^ 64) ∧
    (lineAddrs 4 8 8 =
        (List.range' 8 8).filter (fun idx => idx == 8 || idx % 4 == 0) ∧
      (8 % 4 = 0 → 8 = 2 * 4 → (lineAddrs 4 8 8).length = 2) ∧
      (8 % 4 = 0 → 2 ≤ 4 → 8 = 4 / 2 → (lineAddrs 4 8 8).length = 1)) :=
  ⟨⟨by decide, by decide, by decide⟩,
    c5_line_splitting 4 8 8 (by decide) (by decide) (by decide)⟩

theorem access_lru_hit (cfg : Config) (st : SimState) (a : Nat) (j : Nat)
    (hp : cfg.policy = Policy.LRU)
    (hh : findHit (st.cache.getD (num_set cfg a) []) (num_tag cfg a) = some j) :
    access_data cfg st a =
      ({ st with
          hit_count := st.hit_count + 1
          num_lru := bump st.num_lru
          cache := st.cache.set (num_set cfg a)
            ((st.cache.getD (num_set cfg a) []).set j
              { (st.cache.getD (num_set cfg a) []).getD j default with
                  countBlock := bump st.num_lru }) },
        AccessResult.HIT) := by
  simp only [access_data, hp, hh]

theorem access_lru_miss_free (cfg : Config) (st : SimState) (a : Nat) (inv : Nat)
    (hp : cfg.policy = Policy.LRU)
    (hh : findHit (st.cache.getD (num_set cfg a) []) (num_tag cfg a) = none)
    (hf : findFree (st.cache.getD (num_set cfg a) []) = some inv) :
    access_data cfg st a =
      ({ st with
          miss_count := st.miss_count + 1
          num_lru := bump st.num_lru
          cache := st.cache.set (num_set cfg a)
            ((st.cache.getD (num_set cfg a) []).set inv
              ⟨num_tag cfg a, bump st.num_lru, true⟩) },
        AccessResult.MISS) := by
  simp only [access_data, hp, hh, hf]

theorem access_lru_evict (cfg : Config) (st : SimState) (a : Nat)
    (hp : cfg.policy = Policy.LRU)
    (hh : findHit (st.cache.getD (num_set cfg a) []) (num_tag cfg a) = none)
    (hf : findFree (st.cache.getD (num_set cfg a) []) = none) :
    access_data cfg st a =
      ({ st with
          miss_count := st.miss_count + 1
          eviction_count := st.eviction_count + 1
          num_lru := bump st.num_lru
          cache := st.cache.set (num_set cfg a)
            ((st.cache.getD (num_set cfg a) []).set
              (lruVictim (st.cache.getD (num_set cfg a) []))
              { (st.cache.getD (num_set cfg a) []).getD
                  (lruVictim (st.cache.getD (num_set cfg a) [])) default with
                  tagBits := num_tag cfg a, countBlock := bump st.num_lru }) },
        AccessResult.MISSEVICTION) := by
  simp only [access_data, hp, hh, hf]

theorem access_fifo_hit (cfg : Config) (st : SimState) (a : Nat) (j : Nat)
    (hp : cfg.policy = Policy.FIFO)
    (hh : findHit (st.cache.getD (num_set cfg a) []) (num_tag cfg a) = some j) :
    access_data cfg st a =
      ({ st with hit_count := st.hit_count + 1 }, AccessResult.HIT) := by
  simp only [access_data, hp, hh]

theorem access_fifo_miss_free (cfg : Config) (st : SimState) (a : Nat) (inv : Nat)
    (hp : cfg.policy = Policy.FIFO)
    (hh : findHit (st.cache.getD (num_set cfg a) []) (num_tag cfg a) = none)
    (hf : findFree (st.cache.getD (num_set cfg a) []) = some inv) :
    access_data cfg st a =
      ({ st with
          miss_count := st.miss_count + 1
          num_fifo := bump st.num_fifo
          cache := st.cache.set (num_set cfg a)
            ((st.cache.getD (num_set cfg a) []).set inv
              ⟨num_tag cfg a, bump st.num_fifo, true⟩) },
        AccessResult.MISS) := by
  simp only [access_data, hp, hh, hf]

theorem access_fifo_evict (cfg : Config) (st : SimState) (a : Nat)
    (hp : cfg.policy = Policy.FIFO)
    (hh : findHit (st.cache.getD (num_set cfg a) []) (num_tag cfg a) = none)
    (hf : findFree (st.cache.getD (num_set cfg a) []) = none) :
    access_data cfg st a =
      ({ st with
          miss_count := st.miss_count + 1
          eviction_count := st.eviction_count + 1
          num_fifo := bump st.num_fifo
          cache := st.cache.set (num_set cfg a)
            ((st.cache.getD (num_set cfg a) []).set
              (fifoVictim (st.cache.getD (num_set cfg a) []))
              ⟨num_tag cfg a, bump st.num_fifo, true⟩) },
        AccessResult.MISSEVICTION) := by
  simp only [access_data, hp, hh, hf]

/-- LRU half of the amended C3 scenario: A, B, hit A, then D evicts B. -/
theorem c3_lru_aux (cfg : Config) (a1 a2 d : Nat)
    (hp : cfg.policy = Policy.LRU) (hS : 0 < cfg.S) (hK : cfg.K = 2)
    (hs2 : num_set cfg a2 = num_set cfg a1) (hs3 : num_set cfg d = num_set cfg a1)
    (h21 : num_tag cfg a2 ≠ num_tag cfg a1)
    (hd1 : num_tag cfg d ≠ num_tag cfg a1)
    (hd2 : num_tag cfg d ≠ num_tag cfg a2) :
    (run_accesses cfg (initState cfg) [a1, a2, a1, d]).cache.getD (num_set cfg a1) [] =
      [⟨num_tag cfg a1, 4, true⟩, ⟨num_tag cfg d, 5, true⟩] := by
  have hi : num_set cfg a1 < cfg.S := num_set_lt cfg a1 hS
  have hlen0 : (initState cfg).cache.length = cfg.S := by simp [initState, allocate_cache]
  have hb1 : bump 1 = 2 := by norm_num [bump]
  have hb2 : bump 2 = 3 := by norm_num [bump]
  have hb3 : bump 3 = 4 := by norm_num [bump]
  have hb4 : bump 4 = 5 := by norm_num [bump]
  have hne21 : (num_tag cfg a1 == num_tag cfg a2) = false :=
    beq_eq_false_iff_ne.mpr (Ne.symm h21)
  have hne1d : (num_tag cfg a1 == num_tag cfg d) = false :=
    beq_eq_false_iff_ne.mpr (Ne.symm hd1)
  have hne2d : (num_tag cfg a2 == num_tag cfg d) = false :=
    beq_eq_false_iff_ne.mpr (Ne.symm hd2)
  have hget0 : (initState cfg).cache.getD (num_set cfg a1) [] =
      [⟨0, 0, false⟩, ⟨0, 0, false⟩] := by
    rw [initState_setAt cfg a1 hS, hK]
    rfl
  -- step 1: a1 misses into slot 0
  have e1 := access_lru_miss_free cfg (initState cfg) a1 0 hp
    (findHit_init cfg a1 hS) (findFree_init cfg a1 hS (by omega))
  rw [hget0, show (initState cfg).num_lru = 1 from rfl, hb1] at e1
  have E1 : (access_data cfg (initState cfg) a1).1 =
      { initState cfg with
          miss_count := (initState cfg).miss_count + 1
          num_lru := 2
          cache := (initState cfg).cache.set (num_set cfg a1)
            [⟨num_tag cfg a1, 2, true⟩, ⟨0, 0, false⟩] } := by
    rw [e1]
    rfl
  -- step 2: a2 misses into slot 1
  have hget1 : ({ initState cfg with
      miss_count := (initState cfg).miss_count + 1
      num_lru := 2
      cache := (initState cfg).cache.set (num_set cfg a1)
        [⟨num_tag cfg a1, 2, true⟩, ⟨0, 0, false⟩] } : SimState).cache.getD
        (num_set cfg a2) [] = [⟨num_tag cfg a1, 2, true⟩, ⟨0, 0, false⟩] := by
    rw [hs2]
    exact getD_set_self _ _ (by rw [hlen0]; exact hi)
  have hh2 : findHit (({ initState cfg with
      miss_count := (initState cfg).miss_count + 1
      num_lru := 2
      cache := (initState cfg).cache.set (num_set cfg a1)
        [⟨num_tag cfg a1, 2, true⟩, ⟨0, 0, false⟩] } : SimState).cache.getD
        (num_set cfg a2) []) (num_tag cfg a2) = none := by
    rw [hget1]; simp [findHit, scanIdx, hne21]
  have hf2 : findFree (({ initState cfg with
      miss_count := (initState cfg).miss_count + 1
      num_lru := 2
      cache := (initState cfg).cache.set (num_set cfg a1)
        [⟨num_tag cfg a1, 2, true⟩, ⟨0, 0, false⟩] } : SimState).cache.getD
        (num_set cfg a2) []) = some 1 := by
    rw [hget1]; simp [findFree, scanIdx]
  have e2 := access_lru_miss_free cfg ({ initState cfg with
      miss_count := (initState cfg).miss_count + 1
      num_lru := 2
      cache := (initState cfg).cache.set (num_set cfg a1)
        [⟨num_tag cfg a1, 2, true⟩, ⟨0, 0, false⟩] } : SimState) a2 1 hp hh2 hf2
  rw [hget1, hs2, hb2] at e2
  have E2 : (access_data cfg ({ initState cfg with
      miss_count := (initState cfg).miss_count + 1
      num_lru := 2
      cache := (initState cfg).cache.set (num_set cfg a1)
        [⟨num_tag cfg a1, 2, true⟩, ⟨0, 0, false⟩] } : SimState) a2).1 =
      ({ initState cfg with
      miss_count := (initState cfg).miss_count + 1 + 1
      num_lru := 3
      cache := ((initState cfg).cache.set (num_set cfg a1)
          [⟨num_tag cfg a1, 2, true⟩, ⟨0, 0, false⟩]).set (num_set cfg a1)
        [⟨num_tag cfg a1, 2, true⟩, ⟨num_tag cfg a2, 3, true⟩] } : SimState) := by
    rw [e2]
    rfl
  -- step 3: a1 hits slot 0
  have hget2 : ({ initState cfg with
      miss_count := (initState cfg).miss_count + 1 + 1
      num_lru := 3
      cache := ((initState cfg).cache.set (num_set cfg a1)
          [⟨num_tag cfg a1, 2, true⟩, ⟨0, 0, false⟩]).set (num_set cfg a1)
        [⟨num_tag cfg a1, 2, true⟩, ⟨num_tag cfg a2, 3, true⟩] } : SimState).cache.getD (num_set cfg a1) [] =
      [⟨num_tag cfg a1, 2, true⟩, ⟨num_tag cfg a2, 3, true⟩] := by
    exact getD_set_self _ _ (by rw [List.length_set, hlen0]; exact hi)
  have hh3 : findHit (({ initState cfg with
      miss_count := (initState cfg).miss_count + 1 + 1
      num_lru := 3
      cache := ((initState cfg).cache.set (num_set cfg a1)
          [⟨num_tag cfg a1, 2, true⟩, ⟨0, 0, false⟩]).set (num_set cfg a1)
        [⟨num_tag cfg a1, 2, true⟩, ⟨num_tag cfg a2, 3, true⟩] } : SimState).cache.getD (num_set cfg a1) [])
      (num_tag cfg a1) = some 0 := by
    rw [hget2]; simp [findHit, scanIdx]
  have e3 := access_lru_hit cfg ({ initState cfg with
      miss_count := (initState cfg).miss_count + 1 + 1
      num_lru := 3
      cache := ((initState cfg).cache.set (num_set cfg a1)
          [⟨num_tag cfg a1, 2, true⟩, ⟨0, 0, false⟩]).set (num_set cfg a1)
        [⟨num_tag cfg a1, 2, true⟩, ⟨num_tag cfg a2, 3, true⟩] } : SimState) a1 0 hp hh3
  rw [hget2, hb3] at e3
  have E3 : (access_data cfg ({ initState cfg with
      miss_count := (initState cfg).miss_count + 1 + 1
      num_lru := 3
      cache := ((initState cfg).cache.set (num_set cfg a1)
          [⟨num_tag cfg a1, 2, true⟩, ⟨0, 0, false⟩]).set (num_set cfg a1)
        [⟨num_tag cfg a1, 2, true⟩, ⟨num_tag cfg a2, 3, true⟩] } : SimState) a1).1 =
      ({ initState cfg with
      miss_count := (initState cfg).miss_count + 1 + 1
      hit_count := (initState cfg).hit_count + 1
      num_lru := 4
      cache := (((initState cfg).cache.set (num_set cfg a1)
            [⟨num_tag cfg a1, 2, true⟩, ⟨0, 0, false⟩]).set (num_set cfg a1)
          [⟨num_tag cfg a1, 2, true⟩, ⟨num_tag cfg a2, 3, true⟩]).set (num_set cfg a1)
        [⟨num_tag cfg a1, 4, true⟩, ⟨num_tag cfg a2, 3, true⟩] } : SimState) := by
    rw [e3]
    rfl
  -- step 4: d misses, the set is full, slot 1 (count 3 < 4) is evicted
  have hget3 : ({ initState cfg with
      miss_count := (initState cfg).miss_count + 1 + 1
      hit_count := (initState cfg).hit_count + 1
      num_lru := 4
      cache := (((initState cfg).cache.set (num_set cfg a1)
            [⟨num_tag cfg a1, 2, true⟩, ⟨0, 0, false⟩]).set (num_set cfg a1)
          [⟨num_tag cfg a1, 2, true⟩, ⟨num_tag cfg a2, 3, true⟩]).set (num_set cfg a1)
        [⟨num_tag cfg a1, 4, true⟩, ⟨num_tag cfg a2, 3, true⟩] } : SimState).cache.getD (num_set cfg d) [] =
      [⟨num_tag cfg a1, 4, true⟩, ⟨num_tag cfg a2, 3, true⟩] := by
    rw [hs3]
    exact getD_set_self _ _ (by rw [List.length_set, List.length_set, hlen0]; exact hi)
  have hh4 : findHit (({ initState cfg with
      miss_count := (initState cfg).miss_count + 1 + 1
      hit_count := (initState cfg).hit_count + 1
      num_lru := 4
      cache := (((initState cfg).cache.set (num_set cfg a1)
            [⟨num_tag cfg a1, 2, true⟩, ⟨0, 0, false⟩]).set (num_set cfg a1)
          [⟨num_tag cfg a1, 2, true⟩, ⟨num_tag cfg a2, 3, true⟩]).set (num_set cfg a1)
        [⟨num_tag cfg a1, 4, true⟩, ⟨num_tag cfg a2, 3, true⟩] } : SimState).cache.getD (num_set cfg d) [])
      (num_tag cfg d) = none := by
    rw [hget3]; simp [findHit, scanIdx, hne1d, hne2d]
  have hf4 : findFree (({ initState cfg with
      miss_count := (initState cfg).miss_count + 1 + 1
      hit_count := (initState cfg).hit_count + 1
      num_lru := 4
      cache := (((initState cfg).cache.set (num_set cfg a1)
            [⟨num_tag cfg a1, 2, true⟩, ⟨0, 0, false⟩]).set (num_set cfg a1)
          [⟨num_tag cfg a1, 2, true⟩, ⟨num_tag cfg a2, 3, true⟩]).set (num_set cfg a1)
        [⟨num_tag cfg a1, 4, true⟩, ⟨num_tag cfg a2, 3, true⟩] } : SimState).cache.getD (num_set cfg d) []) = none := by
    rw [hget3]; simp [findFree, scanIdx]
  have hvic : lruVictim [⟨num_tag cfg a1, 4, true⟩, ⟨num_tag cfg a2, 3, true⟩] = 1 := by
    simp [lruVictim, List.range_succ, List.getD]
  have e4 := access_lru_evict cfg ({ initState cfg with
      miss_count := (initState cfg).miss_count + 1 + 1
      hit_count := (initState cfg).hit_count + 1
      num_lru := 4
      cache := (((initState cfg).cache.set (num_set cfg a1)
            [⟨num_tag cfg a1, 2, true⟩, ⟨0, 0, false⟩]).set (num_set cfg a1)
          [⟨num_tag cfg a1, 2, true⟩, ⟨num_tag cfg a2, 3, true⟩]).set (num_set cfg a1)
        [⟨num_tag cfg a1, 4, true⟩, ⟨num_tag cfg a2, 3, true⟩] } : SimState) d hp hh4 hf4
  rw [hget3, hs3, hvic, hb4] at e4
  have E4 : (access_data cfg ({ initState cfg with
      miss_count := (initState cfg).miss_count + 1 + 1
      hit_count := (initState cfg).hit_count + 1
      num_lru := 4
      cache := (((initState cfg).cache.set (num_set cfg a1)
            [⟨num_tag cfg a1, 2, true⟩, ⟨0, 0, false⟩]).set (num_set cfg a1)
          [⟨num_tag cfg a1, 2, true⟩, ⟨num_tag cfg a2, 3, true⟩]).set (num_set cfg a1)
        [⟨num_tag cfg a1, 4, true⟩, ⟨num_tag cfg a2, 3, true⟩] } : SimState) d).1 =
      ({ initState cfg with
      miss_count := (initState cfg).miss_count + 1 + 1 + 1
      hit_count := (initState cfg).hit_count + 1
      eviction_count := (initState cfg).eviction_count + 1
      num_lru := 5
      cache := ((((initState cfg).cache.set (num_set cfg a1)
              [⟨num_tag cfg a1, 2, true⟩, ⟨0, 0, false⟩]).set (num_set cfg a1)
            [⟨num_tag cfg a1, 2, true⟩, ⟨num_tag cfg a2, 3, true⟩]).set (num_set cfg a1)
          [⟨num_tag cfg a1, 4, true⟩, ⟨num_tag cfg a2, 3, true⟩]).set (num_set cfg a1)
        [⟨num_tag cfg a1, 4, true⟩, ⟨num_tag cfg d, 5, true⟩] } : SimState) := by
    rw [e4]
    rfl
  -- assemble
  have hrun : run_accesses cfg (initState cfg) [a1, a2, a1, d] =
      (access_data cfg (access_data cfg (access_data cfg
        (access_data cfg (initState cfg) a1).1 a2).1 a1).1 d).1 := rfl
  rw [hrun, E1, E2, E3, E4]
  exact getD_set_self _ _
    (by rw [List.length_set, List.length_set, List.length_set, hlen0]; exact hi)

/-- FIFO half of the amended C3 scenario: A, B, hit A, then D evicts A. -/
theorem c3_fifo_aux (cfg : Config) (a1 a2 d : Nat)
    (hp : cfg.policy = Policy.FIFO) (hS : 0 < cfg.S) (hK : cfg.K = 2)
    (hs2 : num_set cfg a2 = num_set cfg a1) (hs3 : num_set cfg d = num_set cfg a1)
    (h21 : num_tag cfg a2 ≠ num_tag cfg a1)
    (hd1 : num_tag cfg d ≠ num_tag cfg a1)
    (hd2 : num_tag cfg d ≠ num_tag cfg a2) :
    (run_accesses cfg (initState cfg) [a1, a2, a1, d]).cache.getD (num_set cfg a1) [] =
      [⟨num_tag cfg d, 4, true⟩, ⟨num_tag cfg a2, 3, true⟩] := by
  have hi : num_set cfg a1 < cfg.S := num_set_lt cfg a1 hS
  have hlen0 : (initState cfg).cache.length = cfg.S := by simp [initState, allocate_cache]
  have hb1 : bump 1 = 2 := by norm_num [bump]
  have hb2 : bump 2 = 3 := by norm_num [bump]
  have hb3 : bump 3 = 4 := by norm_num [bump]
  have hne21 : (num_tag cfg a1 == num_tag cfg a2) = false :=
    beq_eq_false_iff_ne.mpr (Ne.symm h21)
  have hne1d : (num_tag cfg a1 == num_tag cfg d) = false :=
    beq_eq_false_iff_ne.mpr (Ne.symm hd1)
  have hne2d : (num_tag cfg a2 == num_tag cfg d) = false :=
    beq_eq_false_iff_ne.mpr (Ne.symm hd2)
  have hget0 : (initState cfg).cache.getD (num_set cfg a1) [] =
      [⟨0, 0, false⟩, ⟨0, 0, false⟩] := by
    rw [initState_setAt cfg a1 hS, hK]
    rfl
  -- step 1: a1 misses into slot 0
  have e1 := access_fifo_miss_free cfg (initState cfg) a1 0 hp
    (findHit_init cfg a1 hS) (findFree_init cfg a1 hS (by omega))
  rw [hget0, show (initState cfg).num_fifo = 1 from rfl, hb1] at e1
  have E1 : (access_data cfg (initState cfg) a1).1 =
      { initState cfg with
          miss_count := (initState cfg).miss_count + 1
          num_fifo := 2
          cache := (initState cfg).cache.set (num_set cfg a1)
            [⟨num_tag cfg a1, 2, true⟩, ⟨0, 0, false⟩] } := by
    rw [e1]
    rfl
  -- step 2: a2 misses into slot 1
  have hget1 : ({ initState cfg with
      miss_count := (initState cfg).miss_count + 1
      num_fifo := 2
      cache := (initState cfg).cache.set (num_set cfg a1)
        [⟨num_tag cfg a1, 2, true⟩, ⟨0, 0, false⟩] } : SimState).cache.getD
        (num_set cfg a2) [] = [⟨num_tag cfg a1, 2, true⟩, ⟨0, 0, false⟩] := by
    rw [hs2]
    exact getD_set_self _ _ (by rw [hlen0]; exact hi)
  have hh2 : findHit (({ initState cfg with
      miss_count := (initState cfg).miss_count + 1
      num_fifo := 2
      cache := (initState cfg).cache.set (num_set cfg a1)
        [⟨num_tag cfg a1, 2, true⟩, ⟨0, 0, false⟩] } : SimState).cache.getD
        (num_set cfg a2) []) (num_tag cfg a2) = none := by
    rw [hget1]; simp [findHit, scanIdx, hne21]
  have hf2 : findFree (({ initState cfg with
      miss_count := (initState cfg).miss_count + 1
      num_fifo := 2
      cache := (initState cfg).cache.set (num_set cfg a1)
        [⟨num_tag cfg a1, 2, true⟩, ⟨0, 0, false⟩] } : SimState).cache.getD
        (num_set cfg a2) []) = some 1 := by
    rw [hget1]; simp [findFree, scanIdx]
  have e2 := access_fifo_miss_free cfg ({ initState cfg with
      miss_count := (initState cfg).miss_count + 1
      num_fifo := 2
      cache := (initState cfg).cache.set (num_set cfg a1)
        [⟨num_tag cfg a1, 2, true⟩, ⟨0, 0, false⟩] } : SimState) a2 1 hp hh2 hf2
  rw [hget1, hs2, hb2] at e2
  have E2 : (access_data cfg ({ initState cfg with
      miss_count := (initState cfg).miss_count + 1
      num_fifo := 2
      cache := (initState cfg).cache.set (num_set cfg a1)
        [⟨num_tag cfg a1, 2, true⟩, ⟨0, 0, false⟩] } : SimState) a2).1 =
      ({ initState cfg with
      miss_count := (initState cfg).miss_count + 1 + 1
      num_fifo := 3
      cache := ((initState cfg).cache.set (num_set cfg a1)
          [⟨num_tag cfg a1, 2, true⟩, ⟨0, 0, false⟩]).set (num_set cfg a1)
        [⟨num_tag cfg a1, 2, true⟩, ⟨num_tag cfg a2, 3, true⟩] } : SimState) := by
    rw [e2]
    rfl
  -- step 3: a1 hits, FIFO leaves the cache untouched
  have hget2 : ({ initState cfg with
      miss_count := (initState cfg).miss_count + 1 + 1
      num_fifo := 3
      cache := ((initState cfg).cache.set (num_set cfg a1)
          [⟨num_tag cfg a1, 2, true⟩, ⟨0, 0, false⟩]).set (num_set cfg a1)
        [⟨num_tag cfg a1, 2, true⟩, ⟨num_tag cfg a2, 3, true⟩] } : SimState).cache.getD
        (num_set cfg a1) [] =
      [⟨num_tag cfg a1, 2, true⟩, ⟨num_tag cfg a2, 3, true⟩] := by
    exact getD_set_self _ _ (by rw [List.length_set, hlen0]; exact hi)
  have hh3 : findHit (({ initState cfg with
      miss_count := (initState cfg).miss_count + 1 + 1
      num_fifo := 3
      cache := ((initState cfg).cache.set (num_set cfg a1)
          [⟨num_tag cfg a1, 2, true⟩, ⟨0, 0, false⟩]).set (num_set cfg a1)
        [⟨num_tag cfg a1, 2, true⟩, ⟨num_tag cfg a2, 3, true⟩] } : SimState).cache.getD
        (num_set cfg a1) []) (num_tag cfg a1) = some 0 := by
    rw [hget2]; simp [findHit, scanIdx]
  have e3 := access_fifo_hit cfg ({ initState cfg with
      miss_count := (initState cfg).miss_count + 1 + 1
      num_fifo := 3
      cache := ((initState cfg).cache.set (num_set cfg a1)
          [⟨num_tag cfg a1, 2, true⟩, ⟨0, 0, false⟩]).set (num_set cfg a1)
        [⟨num_tag cfg a1, 2, true⟩, ⟨num_tag cfg a2, 3, true⟩] } : SimState) a1 0 hp hh3
  have E3 : (access_data cfg ({ initState cfg with
      miss_count := (initState cfg).miss_count + 1 + 1
      num_fifo := 3
      cache := ((initState cfg).cache.set (num_set cfg a1)
          [⟨num_tag cfg a1, 2, true⟩, ⟨0, 0, false⟩]).set (num_set cfg a1)
        [⟨num_tag cfg a1, 2, true⟩, ⟨num_tag cfg a2, 3, true⟩] } : SimState) a1).1 =
      ({ initState cfg with
      miss_count := (initState cfg).miss_count + 1 + 1
      hit_count := (initState cfg).hit_count + 1
      num_fifo := 3
      cache := ((initState cfg).cache.set (num_set cfg a1)
          [⟨num_tag cfg a1, 2, true⟩, ⟨0, 0, false⟩]).set (num_set cfg a1)
        [⟨num_tag cfg a1, 2, true⟩, ⟨num_tag cfg a2, 3, true⟩] } : SimState) := by
    rw [e3]
  -- step 4: d misses, the set is full, slot 0 (count 2 < 3) is evicted
  have hget3 : ({ initState cfg with
      miss_count := (initState cfg).miss_count + 1 + 1
      hit_count := (initState cfg).hit_count + 1
      num_fifo := 3
      cache := ((initState cfg).cache.set (num_set cfg a1)
          [⟨num_tag cfg a1, 2, true⟩, ⟨0, 0, false⟩]).set (num_set cfg a1)
        [⟨num_tag cfg a1, 2, true⟩, ⟨num_tag cfg a2, 3, true⟩] } : SimState).cache.getD
        (num_set cfg d) [] =
      [⟨num_tag cfg a1, 2, true⟩, ⟨num_tag cfg a2, 3, true⟩] := by
    rw [hs3]
    exact getD_set_self _ _ (by rw [List.length_set, hlen0]; exact hi)
  have hh4 : findHit (({ initState cfg with
      miss_count := (initState cfg).miss_count + 1 + 1
      hit_count := (initState cfg).hit_count + 1
      num_fifo := 3
      cache := ((initState cfg).cache.set (num_set cfg a1)
          [⟨num_tag cfg a1, 2, true⟩, ⟨0, 0, false⟩]).set (num_set cfg a1)
        [⟨num_tag cfg a1, 2, true⟩, ⟨num_tag cfg a2, 3, true⟩] } : SimState).cache.getD
        (num_set cfg d) []) (num_tag cfg d) = none := by
    rw [hget3]; simp [findHit, scanIdx, hne1d, hne2d]
  have hf4 : findFree (({ initState cfg with
      miss_count := (initState cfg).miss_count + 1 + 1
      hit_count := (initState cfg).hit_count + 1
      num_fifo := 3
      cache := ((initState cfg).cache.set (num_set cfg a1)
          [⟨num_tag cfg a1, 2, true⟩, ⟨0, 0, false⟩]).set (num_set cfg a1)
        [⟨num_tag cfg a1, 2, true⟩, ⟨num_tag cfg a2, 3, true⟩] } : SimState).cache.getD
        (num_set cfg d) []) = none := by
    rw [hget3]; simp [findFree, scanIdx]
  have hvic : fifoVictim [⟨num_tag cfg a1, 2, true⟩, ⟨num_tag cfg a2, 3, true⟩] = 0 := by
    simp [fifoVictim, List.range_succ, List.getD]
  have e4 := access_fifo_evict cfg ({ initState cfg with
      miss_count := (initState cfg).miss_count + 1 + 1
      hit_count := (initState cfg).hit_count + 1
      num_fifo := 3
      cache := ((initState cfg).cache.set (num_set cfg a1)
          [⟨num_tag cfg a1, 2, true⟩, ⟨0, 0, false⟩]).set (num_set cfg a1)
        [⟨num_tag cfg a1, 2, true⟩, ⟨num_tag cfg a2, 3, true⟩] } : SimState) d hp hh4 hf4
  rw [hget3, hs3, hvic, hb3] at e4
  have E4 : (access_data cfg ({ initState cfg with
      miss_count := (initState cfg).miss_count + 1 + 1
      hit_count := (initState cfg).hit_count + 1
      num_fifo := 3
      cache := ((initState cfg).cache.set (num_set cfg a1)
          [⟨num_tag cfg a1, 2, true⟩, ⟨0, 0, false⟩]).set (num_set cfg a1)
        [⟨num_tag cfg a1, 2, true⟩, ⟨num_tag cfg a2, 3, true⟩] } : SimState) d).1 =
      ({ initState cfg with
      miss_count := (initState cfg).miss_count + 1 + 1 + 1
      hit_count := (initState cfg).hit_count + 1
      eviction_count := (initState cfg).eviction_count + 1
      num_fifo := 4
      cache := (((initState cfg).cache.set (num_set cfg a1)
            [⟨num_tag cfg a1, 2, true⟩, ⟨0, 0, false⟩]).set (num_set cfg a1)
          [⟨num_tag cfg a1, 2, true⟩, ⟨num_tag cfg a2, 3, true⟩]).set (num_set cfg a1)
        [⟨num_tag cfg d, 4, true⟩, ⟨num_tag cfg a2, 3, true⟩] } : SimState) := by
    rw [e4]
    rfl
  -- assemble
  have hrun : run_accesses cfg (initState cfg) [a1, a2, a1, d] =
      (access_data cfg (access_data cfg (access_data cfg
        (access_data cfg (initState cfg) a1).1 a2).1 a1).1 d).1 := rfl
  rw [hrun, E1, E2, E3, E4]
  exact getD_set_self _ _
    (by rw [List.length_set, List.length_set, hlen0]; exact hi)

/-- C3 (amended): the five-access sequence of the original claim already
evicts A when C is inserted, so the policies cannot be distinguished by it;
with the C access dropped — a K = 2 set receiving A, B, a re-access of A and
then a fresh tag D — LRU evicts the line holding tag B and keeps A, while
FIFO evicts the line holding tag A and keeps B. -/
theorem c3_two_way_eviction_amended (cfg : Config) (a1 a2 d : Nat)
    (hS : 0 < cfg.S) (hK : cfg.K = 2)
    (hs2 : num_set cfg a2 = num_set cfg a1) (hs3 : num_set cfg d = num_set cfg a1)
    (h21 : num_tag cfg a2 ≠ num_tag cfg a1)
    (hd1 : num_tag cfg d ≠ num_tag cfg a1)
    (hd2 : num_tag cfg d ≠ num_tag cfg a2) :
    (cfg.policy = Policy.LRU →
      (run_accesses cfg (initState cfg) [a1, a2, a1, d]).cache.getD
          (num_set cfg a1) [] =
        [⟨num_tag cfg a1, 4, true⟩, ⟨num_tag cfg d, 5, true⟩]) ∧
    (cfg.policy = Policy.FIFO →
      (run_accesses cfg (initState cfg) [a1, a2, a1, d]).cache.getD
          (num_set cfg a1) [] =
        [⟨num_tag cfg d, 4, true⟩, ⟨num_tag cfg a2, 3, true⟩]) :=
  ⟨fun hp => c3_lru_aux cfg a1 a2 d hp hS hK hs2 hs3 h21 hd1 hd2,
    fun hp => c3_fifo_aux cfg a1 a2 d hp hS hK hs2 hs3 h21 hd1 hd2⟩

/-- Witness for C3 (amended) at a concrete input: S = 1, K = 2, B = 1, LRU,
with tags A = 0, B = 1, D = 3. -/
theorem c3_two_way_eviction_amended_witness :
    (0 < cfgW2.S ∧ cfgW2.K = 2 ∧
      num_set cfgW2 1 = num_set cfgW2 0 ∧ num_set cfgW2 3 = num_set cfgW2 0 ∧
      num_tag cfgW2 1 ≠ num_tag cfgW2 0 ∧ num_tag cfgW2 3 ≠ num_tag cfgW2 0 ∧
      num_tag cfgW2 3 ≠ num_tag cfgW2 1) ∧
    ((cfgW2.policy = Policy.LRU →
        (run_accesses cfgW2 (initState cfgW2) [0, 1, 0, 3]).cache.getD
            (num_set cfgW2 0) [] =
          [⟨num_tag cfgW2 0, 4, true⟩, ⟨num_tag cfgW2 3, 5, true⟩]) ∧
      (cfgW2.policy = Policy.FIFO →
        (run_accesses cfgW2 (initState cfgW2) [0, 1, 0, 3]).cache.getD
            (num_set cfgW2 0) [] =
          [⟨num_tag cfgW2 3, 4, true⟩, ⟨num_tag cfgW2 1, 3, true⟩])) :=
  ⟨⟨by decide, by decide, by decide, by decide, by decide, by decide, by decide⟩,
    c3_two_way_eviction_amended cfgW2 0 1 3 (by decide) (by decide) (by decide)
      (by decide) (by decide) (by decide) (by decide)⟩

/-- A per-slot relation between two caches, indexed by the set number. -/
def CacheRel (r : Nat → BlockCache → BlockCache → Prop)
    (c1 c2 : List (List BlockCache)) : Prop :=
  c1.length = c2.length ∧
  ∀ i, (c1.getD i []).length = (c2.getD i []).length ∧
    ∀ j, r i ((c1.getD i []).getD j default) ((c2.getD i []).getD j default)

theorem CacheRel_set {r : Nat → BlockCache → BlockCache → Prop}
    {c1 c2 : List (List BlockCache)} (h : CacheRel r c1 c2) (i : Nat)
    (s1 s2 : List BlockCache) (hlen : s1.length = s2.length)
    (hr : ∀ j, r i (s1.getD j default) (s2.getD j default)) :
    CacheRel r (c1.set i s1) (c2.set i s2) := by
  obtain ⟨hc, hsets⟩ := h
  refine ⟨by rw [List.length_set, List.length_set, hc], ?_⟩
  intro i'
  by_cases hi : i < c1.length
  · rcases eq_or_ne i i' with hii | hii
    · subst hii
      rw [getD_set_self s1 [] hi, getD_set_self s2 [] (by rw [← hc]; exact hi)]
      exact ⟨hlen, hr⟩
    · rw [getD_set_ne hii s1 [], getD_set_ne hii s2 []]
      exact hsets i'
  · rw [List.set_eq_of_length_le (by omega), List.set_eq_of_length_le (by omega)]
    exact hsets i'

theorem CacheRel_set_left {r : Nat → BlockCache → BlockCache → Prop}
    {c1 c2 : List (List BlockCache)} (h : CacheRel r c1 c2) (i : Nat)
    (s1 : List BlockCache) (hlen : s1.length = (c2.getD i []).length)
    (hr : ∀ j, r i (s1.getD j default) ((c2.getD i []).getD j default)) :
    CacheRel r (c1.set i s1) c2 := by
  obtain ⟨hc, hsets⟩ := h
  refine ⟨by rw [List.length_set, hc], ?_⟩
  intro i'
  by_cases hi : i < c1.length
  · rcases eq_or_ne i i' with hii | hii
    · subst hii
      rw [getD_set_self s1 [] hi]
      exact ⟨hlen, hr⟩
    · rw [getD_set_ne hii s1 []]
      exact hsets i'
  · rw [List.set_eq_of_length_le (by omega)]
    exact hsets i'

theorem scanIdx_congr {α : Type} (p1 p2 : α → Bool) (d : α) :
    ∀ (l1 l2 : List α), l1.length = l2.length →
      (∀ j, j < l1.length → p1 (l1.getD j d) = p2 (l2.getD j d)) →
      scanIdx p1 l1 = scanIdx p2 l2 := by
  intro l1
  induction l1 with
  | nil =>
    intro l2 h _
    cases l2 with
    | nil => rfl
    | cons y ys => simp at h
  | cons x xs ih =>
    intro l2 hlen hpt
    cases l2 with
    | nil => simp at hlen
    | cons y ys =>
      have h0 : p1 x = p2 y := hpt 0 (by simp)
      have hlen' : xs.length = ys.length := by simpa using hlen
      have hpt' : ∀ j, j < xs.length → p1 (xs.getD j d) = p2 (ys.getD j d) := by
        intro j hj
        exact hpt (j + 1) (by simp; omega)
      simp only [scanIdx, h0, ih ys hlen' hpt']

theorem foldl_congr_fun {α β : Type} (f g : β → α → β) (l : List α) (b : β)
    (h : ∀ acc x, f acc x = g acc x) : l.foldl f b = l.foldl g b := by
  induction l generalizing b with
  | nil => rfl
  | cons x xs ih =>
    rw [List.foldl_cons, List.foldl_cons, h, ih]

theorem lruVictim_congr (s1 s2 : List BlockCache) (hlen : s1.length = s2.length)
    (hc : ∀ j, (s1.getD j default).countBlock = (s2.getD j default).countBlock) :
    lruVictim s1 = lruVictim s2 := by
  unfold lruVictim
  rw [hlen, hc 0]
  congr 1
  apply foldl_congr_fun
  intro acc x
  rw [hc x]

theorem fifoVictim_congr (s1 s2 : List BlockCache) (hlen : s1.length = s2.length)
    (hc : ∀ j, (s1.getD j default).countBlock = (s2.getD j default).countBlock) :
    fifoVictim s1 = fifoVictim s2 := by
  unfold fifoVictim
  rw [hlen]
  apply foldl_congr_fun
  intro acc x
  rw [hc x, hc acc]

theorem findFree_congr (s1 s2 : List BlockCache) (hlen : s1.length = s2.length)
    (hv : ∀ j, (s1.getD j default).validBits = (s2.getD j default).validBits) :
    findFree s1 = findFree s2 := by
  apply scanIdx_congr _ _ default s1 s2 hlen
  intro j hj
  rw [hv j]

theorem pointwise_set {α : Type} (r : α → α → Prop) (d : α) (s1 s2 : List α)
    (hlen : s1.length = s2.length)
    (hpt : ∀ j, r (s1.getD j d) (s2.getD j d)) {x1 x2 : α} (hx : r x1 x2) (n : Nat) :
    ∀ j, r ((s1.set n x1).getD j d) ((s2.set n x2).getD j d) := by
  intro j
  by_cases hn : n < s1.length
  · rcases eq_or_ne n j with hnj | hnj
    · subst hnj
      rw [getD_set_self x1 d hn, getD_set_self x2 d (by omega)]
      exact hx
    · rw [getD_set_ne hnj x1 d, getD_set_ne hnj x2 d]
      exact hpt j
  · rw [List.set_eq_of_length_le (by omega), List.set_eq_of_length_le (by omega)]
    exact hpt j

/-- Tag-and-validity agreement between the two runs of C7. -/
def VTrel (x y : BlockCache) : Prop :=
  x.tagBits = y.tagBits ∧ x.validBits = y.validBits

theorem pointwise_set_left {α : Type} (r : α → α → Prop) (d : α) (s1 s2 : List α)
    (hpt : ∀ j, r (s1.getD j d) (s2.getD j d)) {x1 : α} (n : Nat)
    (hx : r x1 (s2.getD n d)) :
    ∀ j, r ((s1.set n x1).getD j d) (s2.getD j d) := by
  intro j
  by_cases hn : n < s1.length
  · rcases eq_or_ne n j with rfl | hnj
    · rw [getD_set_self x1 d hn]
      exact hx
    · rw [getD_set_ne hnj x1 d]
      exact hpt j
  · rw [List.set_eq_of_length_le (by omega)]
    exact hpt j

theorem c7_access_step (S B sT bT : Nat) (a : Nat) (st1 st2 : SimState)
    (hwf1 : Wf ⟨S, 1, B, Policy.LRU, sT, bT⟩ st1)
    (hwf2 : Wf ⟨S, 1, B, Policy.FIFO, sT, bT⟩ st2)
    (h1 : st1.hit_count = st2.hit_count)
    (h2 : st1.miss_count = st2.miss_count)
    (h3 : st1.eviction_count = st2.eviction_count)
    (hrel : CacheRel (fun _ => VTrel) st1.cache st2.cache) :
    (access_data ⟨S, 1, B, Policy.LRU, sT, bT⟩ st1 a).1.hit_count =
      (access_data ⟨S, 1, B, Policy.FIFO, sT, bT⟩ st2 a).1.hit_count ∧
    (access_data ⟨S, 1, B, Policy.LRU, sT, bT⟩ st1 a).1.miss_count =
      (access_data ⟨S, 1, B, Policy.FIFO, sT, bT⟩ st2 a).1.miss_count ∧
    (access_data ⟨S, 1, B, Policy.LRU, sT, bT⟩ st1 a).1.eviction_count =
      (access_data ⟨S, 1, B, Policy.FIFO, sT, bT⟩ st2 a).1.eviction_count ∧
    CacheRel (fun _ => VTrel)
      (access_data ⟨S, 1, B, Policy.LRU, sT, bT⟩ st1 a).1.cache
      (access_data ⟨S, 1, B, Policy.FIFO, sT, bT⟩ st2 a).1.cache := by
  have hlen1 : (st1.cache.getD (num_set ⟨S, 1, B, Policy.LRU, sT, bT⟩ a) []).length = 1 :=
    setAt_length _ st1 a hwf1
  have hlen2 : (st2.cache.getD (num_set ⟨S, 1, B, Policy.LRU, sT, bT⟩ a) []).length = 1 :=
    setAt_length ⟨S, 1, B, Policy.FIFO, sT, bT⟩ st2 a hwf2
  obtain ⟨l1, hl1⟩ := List.length_eq_one.mp hlen1
  obtain ⟨l2, hl2⟩ := List.length_eq_one.mp hlen2
  have hptv : ∀ j, VTrel
      ((st1.cache.getD (num_set ⟨S, 1, B, Policy.LRU, sT, bT⟩ a) []).getD j default)
      ((st2.cache.getD (num_set ⟨S, 1, B, Policy.LRU, sT, bT⟩ a) []).getD j default) :=
    (hrel.2 (num_set ⟨S, 1, B, Policy.LRU, sT, bT⟩ a)).2
  have hvt0 : VTrel l1 l2 := by
    have h := hptv 0
    rw [hl1, hl2] at h
    exact h
  have htag : l1.tagBits = l2.tagBits := hvt0.1
  have hval : l1.validBits = l2.validBits := hvt0.2
  cases hc : (l1.tagBits == num_tag ⟨S, 1, B, Policy.LRU, sT, bT⟩ a && l1.validBits) with
  | true =>
    have hfh1 : findHit (st1.cache.getD (num_set ⟨S, 1, B, Policy.LRU, sT, bT⟩ a) [])
        (num_tag ⟨S, 1, B, Policy.LRU, sT, bT⟩ a) = some 0 := by
      rw [hl1]; simp [findHit, scanIdx, hc]
    have hfh2 : findHit (st2.cache.getD (num_set ⟨S, 1, B, Policy.FIFO, sT, bT⟩ a) [])
        (num_tag ⟨S, 1, B, Policy.FIFO, sT, bT⟩ a) = some 0 := by
      have hc2 : (l2.tagBits == num_tag ⟨S, 1, B, Policy.LRU, sT, bT⟩ a && l2.validBits)
          = true := by
        rw [← htag, ← hval]; exact hc
      show findHit (st2.cache.getD (num_set ⟨S, 1, B, Policy.LRU, sT, bT⟩ a) [])
        (num_tag ⟨S, 1, B, Policy.LRU, sT, bT⟩ a) = some 0
      rw [hl2]; simp [findHit, scanIdx, hc2]
    have e1 := access_lru_hit ⟨S, 1, B, Policy.LRU, sT, bT⟩ st1 a 0 rfl hfh1
    have e2 := access_fifo_hit ⟨S, 1, B, Policy.FIFO, sT, bT⟩ st2 a 0 rfl hfh2
    rw [e1, e2]
    refine ⟨show st1.hit_count + 1 = st2.hit_count + 1 by omega,
      show st1.miss_count = st2.miss_count from h2,
      show st1.eviction_count = st2.eviction_count from h3, ?_⟩
    show CacheRel (fun _ => VTrel)
      (st1.cache.set (num_set ⟨S, 1, B, Policy.LRU, sT, bT⟩ a) _) st2.cache
    apply CacheRel_set_left hrel
    · rw [List.length_set, hlen1, hl2]
      rfl
    · apply pointwise_set_left _ _ _ _ hptv 0
      constructor
      · show ((st1.cache.getD (num_set ⟨S, 1, B, Policy.LRU, sT, bT⟩ a) []).getD 0
            default).tagBits =
          ((st2.cache.getD (num_set ⟨S, 1, B, Policy.LRU, sT, bT⟩ a) []).getD 0
            default).tagBits
        rw [hl1, hl2]; exact htag
      · show ((st1.cache.getD (num_set ⟨S, 1, B, Policy.LRU, sT, bT⟩ a) []).getD 0
            default).validBits =
          ((st2.cache.getD (num_set ⟨S, 1, B, Policy.LRU, sT, bT⟩ a) []).getD 0
            default).validBits
        rw [hl1, hl2]; exact hval
  | false =>
    have hfh1 : findHit (st1.cache.getD (num_set ⟨S, 1, B, Policy.LRU, sT, bT⟩ a) [])
        (num_tag ⟨S, 1, B, Policy.LRU, sT, bT⟩ a) = none := by
      rw [hl1]; simp [findHit, scanIdx, hc]
    have hfh2 : findHit (st2.cache.getD (num_set ⟨S, 1, B, Policy.FIFO, sT, bT⟩ a) [])
        (num_tag ⟨S, 1, B, Policy.FIFO, sT, bT⟩ a) = none := by
      have hc2 : (l2.tagBits == num_tag ⟨S, 1, B, Policy.LRU, sT, bT⟩ a && l2.validBits)
          = false := by
        rw [← htag, ← hval]; exact hc
      show findHit (st2.cache.getD (num_set ⟨S, 1, B, Policy.LRU, sT, bT⟩ a) [])
        (num_tag ⟨S, 1, B, Policy.LRU, sT, bT⟩ a) = none
      rw [hl2]; simp [findHit, scanIdx, hc2]
    have hffeq : findFree (st1.cache.getD (num_set ⟨S, 1, B, Policy.LRU, sT, bT⟩ a) []) =
        findFree (st2.cache.getD (num_set ⟨S, 1, B, Policy.LRU, sT, bT⟩ a) []) := by
      apply findFree_congr _ _ (by omega)
      intro j
      exact (hptv j).2
    cases hff : findFree (st1.cache.getD (num_set ⟨S, 1, B, Policy.LRU, sT, bT⟩ a) []) with
    | some inv =>
      have hff2 : findFree (st2.cache.getD (num_set ⟨S, 1, B, Policy.FIFO, sT, bT⟩ a) [])
          = some inv := by
        show findFree (st2.cache.getD (num_set ⟨S, 1, B, Policy.LRU, sT, bT⟩ a) []) = some inv
        rw [← hffeq]; exact hff
      have e1 := access_lru_miss_free ⟨S, 1, B, Policy.LRU, sT, bT⟩ st1 a inv rfl hfh1 hff
      have e2 := access_fifo_miss_free ⟨S, 1, B, Policy.FIFO, sT, bT⟩ st2 a inv rfl hfh2 hff2
      rw [e1, e2]
      refine ⟨show st1.hit_count = st2.hit_count from h1,
        show st1.miss_count + 1 = st2.miss_count + 1 by omega,
        show st1.eviction_count = st2.eviction_count from h3, ?_⟩
      show CacheRel (fun _ => VTrel)
        (st1.cache.set (num_set ⟨S, 1, B, Policy.LRU, sT, bT⟩ a)
          ((st1.cache.getD (num_set ⟨S, 1, B, Policy.LRU, sT, bT⟩ a) []).set inv
            ⟨num_tag ⟨S, 1, B, Policy.LRU, sT, bT⟩ a, bump st1.num_lru, true⟩))
        (st2.cache.set (num_set ⟨S, 1, B, Policy.LRU, sT, bT⟩ a)
          ((st2.cache.getD (num_set ⟨S, 1, B, Policy.LRU, sT, bT⟩ a) []).set inv
            ⟨num_tag ⟨S, 1, B, Policy.LRU, sT, bT⟩ a, bump st2.num_fifo, true⟩))
      apply CacheRel_set hrel
      · rw [List.length_set, List.length_set, hlen1, hlen2]
      · apply pointwise_set _ _ _ _ (by omega) hptv _ inv
        exact ⟨rfl, rfl⟩
    | none =>
      have hff2 : findFree (st2.cache.getD (num_set ⟨S, 1, B, Policy.FIFO, sT, bT⟩ a) [])
          = none := by
        show findFree (st2.cache.getD (num_set ⟨S, 1, B, Policy.LRU, sT, bT⟩ a) []) = none
        rw [← hffeq]; exact hff
      have hval1 : l1.validBits = true := by
        have h := findFree_none_valid hff 0 (by omega)
        rw [hl1] at h
        exact h
      have hv1 : lruVictim (st1.cache.getD (num_set ⟨S, 1, B, Policy.LRU, sT, bT⟩ a) [])
          = 0 := by
        rw [hl1]; simp [lruVictim, List.range_succ, List.range_zero, List.getD]
      have e1 := access_lru_evict ⟨S, 1, B, Policy.LRU, sT, bT⟩ st1 a rfl hfh1 hff
      have e2 := access_fifo_evict ⟨S, 1, B, Policy.FIFO, sT, bT⟩ st2 a rfl hfh2 hff2
      rw [hv1] at e1
      rw [e1, e2]
      refine ⟨show st1.hit_count = st2.hit_count from h1,
        show st1.miss_count + 1 = st2.miss_count + 1 by omega,
        show st1.eviction_count + 1 = st2.eviction_count + 1 by omega, ?_⟩
      show CacheRel (fun _ => VTrel)
        (st1.cache.set (num_set ⟨S, 1, B, Policy.LRU, sT, bT⟩ a) _)
        (st2.cache.set (num_set ⟨S, 1, B, Policy.LRU, sT, bT⟩ a)
          ((st2.cache.getD (num_set ⟨S, 1, B, Policy.LRU, sT, bT⟩ a) []).set
            (fifoVictim (st2.cache.getD (num_set ⟨S, 1, B, Policy.LRU, sT, bT⟩ a) []))
            _))
      have hv2 : fifoVictim (st2.cache.getD (num_set ⟨S, 1, B, Policy.LRU, sT, bT⟩ a) [])
          = 0 := by
        rw [hl2]; simp [fifoVictim, List.range_succ, List.range_zero, List.getD]
      rw [hv2]
      apply CacheRel_set hrel
      · rw [List.length_set, List.length_set, hlen1, hlen2]
      · apply pointwise_set _ _ _ _ (by omega) hptv _ 0
        constructor
        · rfl
        · show ((st1.cache.getD (num_set ⟨S, 1, B, Policy.LRU, sT, bT⟩ a) []).getD 0
              default).validBits = true
          rw [hl1]
          exact hval1

/-- The single-line addresses a record expands to: one access per selected
address for L and S, two for M, none otherwise. -/
def record_addrs (B : Nat) (r : TraceRecord) : List Nat :=
  if r.cmd = 'L' || r.cmd = 'S' then lineAddrs B r.address r.size
  else if r.cmd = 'M' then (lineAddrs B r.address r.size).flatMap (fun a => [a, a])
  else []

theorem foldl_double {β : Type} (f : β → Nat → β) :
    ∀ (l : List Nat) (b : β),
      l.foldl (fun s a => f (f s a) a) b = (l.flatMap (fun a => [a, a])).foldl f b := by
  intro l
  induction l with
  | nil => intro b; rfl
  | cons x xs ih =>
    intro b
    rw [List.flatMap_cons, List.foldl_append]
    exact ih _

theorem replay_record_eq (cfg : Config) (st : SimState) (r : TraceRecord) :
    replay_record cfg st r = run_accesses cfg st (record_addrs cfg.B r) := by
  unfold replay_record record_addrs run_accesses
  by_cases h1 : r.cmd = 'L' || r.cmd = 'S'
  · simp only [h1, if_pos]
  · simp only [h1, if_neg, Bool.false_eq_true, not_false_iff]
    by_cases h2 : r.cmd = 'M'
    · simp only [h2, if_pos]
      exact foldl_double (fun s a => (access_data cfg s a).1) _ st
    · simp only [h2, if_neg, not_false_iff]
      rfl

theorem run_accesses_append (cfg : Config) (st : SimState) (l1 l2 : List Nat) :
    run_accesses cfg st (l1 ++ l2) = run_accesses cfg (run_accesses cfg st l1) l2 := by
  unfold run_accesses
  exact List.foldl_append _ _ _ _

theorem run_trace_eq (cfg : Config) (rs : List TraceRecord) :
    run_trace cfg rs =
      run_accesses cfg (initState cfg) (rs.flatMap (record_addrs cfg.B)) := by
  unfold run_trace
  have : ∀ (rs : List TraceRecord) (st : SimState),
      rs.foldl (replay_record cfg) st =
        run_accesses cfg st (rs.flatMap (record_addrs cfg.B)) := by
    intro rs
    induction rs with
    | nil => intro st; rfl
    | cons r rs ih =>
      intro st
      rw [List.foldl_cons, List.flatMap_cons, run_accesses_append, ih,
        replay_record_eq]
  exact this rs (initState cfg)

theorem c7_run (S B sT bT : Nat) :
    ∀ (as : List Nat) (st1 st2 : SimState),
      Wf ⟨S, 1, B, Policy.LRU, sT, bT⟩ st1 →
      Wf ⟨S, 1, B, Policy.FIFO, sT, bT⟩ st2 →
      st1.hit_count = st2.hit_count → st1.miss_count = st2.miss_count →
      st1.eviction_count = st2.eviction_count →
      CacheRel (fun _ => VTrel) st1.cache st2.cache →
      (run_accesses ⟨S, 1, B, Policy.LRU, sT, bT⟩ st1 as).hit_count =
        (run_accesses ⟨S, 1, B, Policy.FIFO, sT, bT⟩ st2 as).hit_count ∧
      (run_accesses ⟨S, 1, B, Policy.LRU, sT, bT⟩ st1 as).miss_count =
        (run_accesses ⟨S, 1, B, Policy.FIFO, sT, bT⟩ st2 as).miss_count ∧
      (run_accesses ⟨S, 1, B, Policy.LRU, sT, bT⟩ st1 as).eviction_count =
        (run_accesses ⟨S, 1, B, Policy.FIFO, sT, bT⟩ st2 as).eviction_count := by
  intro as
  induction as with
  | nil =>
    intro st1 st2 _ _ h1 h2 h3 _
    exact ⟨h1, h2, h3⟩
  | cons x xs ih =>
    intro st1 st2 hw1 hw2 h1 h2 h3 hrel
    obtain ⟨g1, g2, g3, grel⟩ := c7_access_step S B sT bT x st1 st2 hw1 hw2 h1 h2 h3 hrel
    exact ih _ _ (access_wf _ st1 x hw1) (access_wf _ st2 x hw2) g1 g2 g3 grel

theorem CacheRel_VTrel_refl (c : List (List BlockCache)) :
    CacheRel (fun _ => VTrel) c c :=
  ⟨rfl, fun _ => ⟨rfl, fun _ => ⟨rfl, rfl⟩⟩⟩

/-- C7: with K = 1, the LRU and FIFO policies produce identical hit, miss and
eviction counts on every trace. -/
theorem c7_k1_policies_agree (S B sT bT : Nat) (hS : 0 < S)
    (records : List TraceRecord) :
    statsOf (run_trace ⟨S, 1, B, Policy.LRU, sT, bT⟩ records) =
      statsOf (run_trace ⟨S, 1, B, Policy.FIFO, sT, bT⟩ records) := by
  rw [run_trace_eq, run_trace_eq]
  have hsame : records.flatMap
        (record_addrs (⟨S, 1, B, Policy.FIFO, sT, bT⟩ : Config).B) =
      records.flatMap (record_addrs (⟨S, 1, B, Policy.LRU, sT, bT⟩ : Config).B) := rfl
  rw [hsame]
  obtain ⟨g1, g2, g3⟩ := c7_run S B sT bT
    (records.flatMap (record_addrs (⟨S, 1, B, Policy.LRU, sT, bT⟩ : Config).B))
    (initState ⟨S, 1, B, Policy.LRU, sT, bT⟩)
    (initState ⟨S, 1, B, Policy.FIFO, sT, bT⟩)
    (initState_wf _ hS Nat.one_pos) (initState_wf _ hS Nat.one_pos)
    rfl rfl rfl
    (CacheRel_VTrel_refl (initState ⟨S, 1, B, Policy.LRU, sT, bT⟩).cache)
  simp only [statsOf, g1, g2, g3]

/-- Witness for C7 at a concrete input: S = 2, B = 2, a three-record trace. -/
theorem c7_k1_policies_agree_witness :
    0 < 2 ∧
    statsOf (run_trace ⟨2, 1, 2, Policy.LRU, 1, 1⟩
        [⟨'L', 0, 1⟩, ⟨'M', 5, 2⟩, ⟨'S', 0, 4⟩]) =
      statsOf (run_trace ⟨2, 1, 2, Policy.FIFO, 1, 1⟩
        [⟨'L', 0, 1⟩, ⟨'M', 5, 2⟩, ⟨'S', 0, 4⟩]) :=
  ⟨by decide,
    c7_k1_policies_agree 2 2 1 1 (by decide) [⟨'L', 0, 1⟩, ⟨'M', 5, 2⟩, ⟨'S', 0, 4⟩]⟩

/-- Splitting an address's code tag (which keeps the set-index bits) into the
spec tag and the set index. -/
theorem addr_tag_decomp (s b a : Nat) :
    a >>> b = (a >>> (s + b)) * 2 ^ s + (a >>> b) % 2 ^ s := by
  have h1 : a >>> (s + b) = (a >>> b) / 2 ^ s := by
    rw [Nat.add_comm s b, Nat.shiftRight_add, Nat.shiftRight_eq_div_pow]
  rw [h1, Nat.mul_comm]
  exact (Nat.div_add_mod _ _).symm

theorem num_set_pow2 (s : Nat) (cfg : Config) (hS : cfg.S = 2 ^ s) (a : Nat) :
    num_set cfg a = (a >>> cfg.bTemp) % 2 ^ s := by
  rw [num_set, hS, Nat.land_comm, Nat.and_pow_two_sub_one_eq_mod]

theorem beq_shift (g t i s : Nat) :
    ((g * 2 ^ s + i) == (t * 2 ^ s + i)) = (g == t) := by
  by_cases h : g = t
  · simp [h]
  · have hne : g * 2 ^ s + i ≠ t * 2 ^ s + i := by
      intro hc
      exact h (Nat.eq_of_mul_eq_mul_right (Nat.pos_pow_of_pos s (by omega))
        (Nat.add_right_cancel hc))
    simp [h, hne]

/-- Relation between a line of the code-tag run and the same line of the
spec-tag run: equal clock and validity, and for valid lines the code tag is
the spec tag with the set index appended below it. -/
def TagRel (s : Nat) (i : Nat) (x y : BlockCache) : Prop :=
  x.countBlock = y.countBlock ∧ x.validBits = y.validBits ∧
    (x.validBits = true → x.tagBits = y.tagBits * 2 ^ s + i)

/-- Full relation between the states of the two runs of C10. -/
def C10Rel (s : Nat) (st1 st2 : SimState) : Prop :=
  st1.hit_count = st2.hit_count ∧ st1.miss_count = st2.miss_count ∧
  st1.eviction_count = st2.eviction_count ∧ st1.num_lru = st2.num_lru ∧
  st1.num_fifo = st2.num_fifo ∧ CacheRel (TagRel s) st1.cache st2.cache

theorem tag_split (s b S K B : Nat) (pol : Policy) (hS : S = 2 ^ s) (a : Nat) :
    num_tag ⟨S, K, B, pol, 0, b⟩ a =
      num_tag ⟨S, K, B, pol, s, b⟩ a * 2 ^ s + num_set ⟨S, K, B, pol, 0, b⟩ a := by
  rw [num_set_pow2 s ⟨S, K, B, pol, 0, b⟩ hS a]
  show a >>> (0 + b) = a >>> (s + b) * 2 ^ s + (a >>> b) % 2 ^ s
  rw [Nat.zero_add]
  exact addr_tag_decomp s b a

theorem c10_access_step (s b S K B : Nat) (pol : Policy) (hS : S = 2 ^ s) (a : Nat)
    (st1 st2 : SimState)
    (hwf1 : Wf ⟨S, K, B, pol, 0, b⟩ st1) (hwf2 : Wf ⟨S, K, B, pol, s, b⟩ st2)
    (hrel : C10Rel s st1 st2) :
    C10Rel s (access_data ⟨S, K, B, pol, 0, b⟩ st1 a).1
      (access_data ⟨S, K, B, pol, s, b⟩ st2 a).1 := by
  obtain ⟨h1, h2, h3, h4, h5, hcr⟩ := hrel
  have hlen1 : (st1.cache.getD (num_set ⟨S, K, B, pol, 0, b⟩ a) []).length = K :=
    setAt_length _ st1 a hwf1
  have hlen2 : (st2.cache.getD (num_set ⟨S, K, B, pol, 0, b⟩ a) []).length = K :=
    setAt_length ⟨S, K, B, pol, s, b⟩ st2 a hwf2
  have hlen2x : (st2.cache.getD (num_set ⟨S, K, B, pol, s, b⟩ a) []).length = K := hlen2
  have hptv : ∀ j, TagRel s (num_set ⟨S, K, B, pol, 0, b⟩ a)
      ((st1.cache.getD (num_set ⟨S, K, B, pol, 0, b⟩ a) []).getD j default)
      ((st2.cache.getD (num_set ⟨S, K, B, pol, 0, b⟩ a) []).getD j default) :=
    (hcr.2 (num_set ⟨S, K, B, pol, 0, b⟩ a)).2
  have hpred : ∀ j, j < (st1.cache.getD (num_set ⟨S, K, B, pol, 0, b⟩ a) []).length →
      (((st1.cache.getD (num_set ⟨S, K, B, pol, 0, b⟩ a) []).getD j default).tagBits ==
          num_tag ⟨S, K, B, pol, 0, b⟩ a &&
        ((st1.cache.getD (num_set ⟨S, K, B, pol, 0, b⟩ a) []).getD j default).validBits) =
      (((st2.cache.getD (num_set ⟨S, K, B, pol, 0, b⟩ a) []).getD j default).tagBits ==
          num_tag ⟨S, K, B, pol, s, b⟩ a &&
        ((st2.cache.getD (num_set ⟨S, K, B, pol, 0, b⟩ a) []).getD j default).validBits) := by
    intro j hj
    obtain ⟨hcnt, hv, htg⟩ := hptv j
    cases hvx : ((st1.cache.getD (num_set ⟨S, K, B, pol, 0, b⟩ a) []).getD j default).validBits with
    | false =>
      rw [hvx] at hv
      rw [← hv]
      simp
    | true =>
      have ht := htg hvx
      rw [hvx] at hv
      rw [← hv, ht, tag_split s b S K B pol hS a, beq_shift]
  have hfh : findHit (st1.cache.getD (num_set ⟨S, K, B, pol, 0, b⟩ a) [])
        (num_tag ⟨S, K, B, pol, 0, b⟩ a) =
      findHit (st2.cache.getD (num_set ⟨S, K, B, pol, 0, b⟩ a) [])
        (num_tag ⟨S, K, B, pol, s, b⟩ a) :=
    scanIdx_congr _ _ default _ _ (by omega) hpred
  have hffv : findFree (st1.cache.getD (num_set ⟨S, K, B, pol, 0, b⟩ a) []) =
      findFree (st2.cache.getD (num_set ⟨S, K, B, pol, 0, b⟩ a) []) := by
    apply findFree_congr _ _ (by omega)
    intro j
    exact (hptv j).2.1
  have hlv : lruVictim (st1.cache.getD (num_set ⟨S, K, B, pol, 0, b⟩ a) []) =
      lruVictim (st2.cache.getD (num_set ⟨S, K, B, pol, 0, b⟩ a) []) := by
    apply lruVictim_congr _ _ (by omega)
    intro j
    exact (hptv j).1
  have hfv : fifoVictim (st1.cache.getD (num_set ⟨S, K, B, pol, 0, b⟩ a) []) =
      fifoVictim (st2.cache.getD (num_set ⟨S, K, B, pol, 0, b⟩ a) []) := by
    apply fifoVictim_congr _ _ (by omega)
    intro j
    exact (hptv j).1
  have htagsplit := tag_split s b S K B pol hS a
  cases pol with
  | LRU =>
    cases hfh1 : findHit (st1.cache.getD (num_set ⟨S, K, B, Policy.LRU, 0, b⟩ a) [])
        (num_tag ⟨S, K, B, Policy.LRU, 0, b⟩ a) with
    | some j =>
      have hfh2 : findHit (st2.cache.getD (num_set ⟨S, K, B, Policy.LRU, s, b⟩ a) [])
          (num_tag ⟨S, K, B, Policy.LRU, s, b⟩ a) = some j := by
        show findHit (st2.cache.getD (num_set ⟨S, K, B, Policy.LRU, 0, b⟩ a) [])
          (num_tag ⟨S, K, B, Policy.LRU, s, b⟩ a) = some j
        rw [← hfh]
        exact hfh1
      have e1 := access_lru_hit ⟨S, K, B, Policy.LRU, 0, b⟩ st1 a j rfl hfh1
      have e2 := access_lru_hit ⟨S, K, B, Policy.LRU, s, b⟩ st2 a j rfl hfh2
      rw [e1, e2]
      refine ⟨show st1.hit_count + 1 = st2.hit_count + 1 by omega,
        h2, h3,
        show bump st1.num_lru = bump st2.num_lru by rw [h4],
        h5, ?_⟩
      apply CacheRel_set hcr
      · rw [List.length_set, List.length_set]
        omega
      · apply pointwise_set _ _ _ _ (by omega) hptv _ j
        obtain ⟨hcnt, hv, htg⟩ := hptv j
        exact ⟨show bump st1.num_lru = bump st2.num_lru by rw [h4], hv, htg⟩
    | none =>
      have hfh2 : findHit (st2.cache.getD (num_set ⟨S, K, B, Policy.LRU, s, b⟩ a) [])
          (num_tag ⟨S, K, B, Policy.LRU, s, b⟩ a) = none := by
        show findHit (st2.cache.getD (num_set ⟨S, K, B, Policy.LRU, 0, b⟩ a) [])
          (num_tag ⟨S, K, B, Policy.LRU, s, b⟩ a) = none
        rw [← hfh]
        exact hfh1
      cases hff1 : findFree (st1.cache.getD (num_set ⟨S, K, B, Policy.LRU, 0, b⟩ a) []) with
      | some inv =>
        have hff2 : findFree (st2.cache.getD (num_set ⟨S, K, B, Policy.LRU, s, b⟩ a) [])
            = some inv := by
          show findFree (st2.cache.getD (num_set ⟨S, K, B, Policy.LRU, 0, b⟩ a) [])
            = some inv
          rw [← hffv]
          exact hff1
        have e1 := access_lru_miss_free ⟨S, K, B, Policy.LRU, 0, b⟩ st1 a inv rfl hfh1 hff1
        have e2 := access_lru_miss_free ⟨S, K, B, Policy.LRU, s, b⟩ st2 a inv rfl hfh2 hff2
        rw [e1, e2]
        refine ⟨h1, show st1.miss_count + 1 = st2.miss_count + 1 by omega, h3,
          show bump st1.num_lru = bump st2.num_lru by rw [h4], h5, ?_⟩
        apply CacheRel_set hcr
        · rw [List.length_set, List.length_set]
          omega
        · apply pointwise_set _ _ _ _ (by omega) hptv _ inv
          exact ⟨show bump st1.num_lru = bump st2.num_lru by rw [h4], rfl,
            fun _ => htagsplit⟩
      | none =>
        have hff2 : findFree (st2.cache.getD (num_set ⟨S, K, B, Policy.LRU, s, b⟩ a) [])
            = none := by
          show findFree (st2.cache.getD (num_set ⟨S, K, B, Policy.LRU, 0, b⟩ a) [])
            = none
          rw [← hffv]
          exact hff1
        have e1 := access_lru_evict ⟨S, K, B, Policy.LRU, 0, b⟩ st1 a rfl hfh1 hff1
        have e2 := access_lru_evict ⟨S, K, B, Policy.LRU, s, b⟩ st2 a rfl hfh2 hff2
        rw [hlv] at e1
        rw [e1, e2]
        refine ⟨h1, show st1.miss_count + 1 = st2.miss_count + 1 by omega,
          show st1.eviction_count + 1 = st2.eviction_count + 1 by omega,
          show bump st1.num_lru = bump st2.num_lru by rw [h4], h5, ?_⟩
        apply CacheRel_set hcr
        · rw [List.length_set, List.length_set]
          omega
        · apply pointwise_set _ _ _ _ (by omega) hptv _
            (lruVictim (st2.cache.getD (num_set ⟨S, K, B, Policy.LRU, 0, b⟩ a) []))
          refine ⟨show bump st1.num_lru = bump st2.num_lru by rw [h4],
            (hptv _).2.1, fun _ => htagsplit⟩
  | FIFO =>
    cases hfh1 : findHit (st1.cache.getD (num_set ⟨S, K, B, Policy.FIFO, 0, b⟩ a) [])
        (num_tag ⟨S, K, B, Policy.FIFO, 0, b⟩ a) with
    | some j =>
      have hfh2 : findHit (st2.cache.getD (num_set ⟨S, K, B, Policy.FIFO, s, b⟩ a) [])
          (num_tag ⟨S, K, B, Policy.FIFO, s, b⟩ a) = some j := by
        show findHit (st2.cache.getD (num_set ⟨S, K, B, Policy.FIFO, 0, b⟩ a) [])
          (num_tag ⟨S, K, B, Policy.FIFO, s, b⟩ a) = some j
        rw [← hfh]
        exact hfh1
      have e1 := access_fifo_hit ⟨S, K, B, Policy.FIFO, 0, b⟩ st1 a j rfl hfh1
      have e2 := access_fifo_hit ⟨S, K, B, Policy.FIFO, s, b⟩ st2 a j rfl hfh2
      rw [e1, e2]
      exact ⟨show st1.hit_count + 1 = st2.hit_count + 1 by omega, h2, h3, h4, h5, hcr⟩
    | none =>
      have hfh2 : findHit (st2.cache.getD (num_set ⟨S, K, B, Policy.FIFO, s, b⟩ a) [])
          (num_tag ⟨S, K, B, Policy.FIFO, s, b⟩ a) = none := by
        show findHit (st2.cache.getD (num_set ⟨S, K, B, Policy.FIFO, 0, b⟩ a) [])
          (num_tag ⟨S, K, B, Policy.FIFO, s, b⟩ a) = none
        rw [← hfh]
        exact hfh1
      cases hff1 : findFree (st1.cache.getD (num_set ⟨S, K, B, Policy.FIFO, 0, b⟩ a) []) with
      | some inv =>
        have hff2 : findFree (st2.cache.getD (num_set ⟨S, K, B, Policy.FIFO, s, b⟩ a) [])
            = some inv := by
          show findFree (st2.cache.getD (num_set ⟨S, K, B, Policy.FIFO, 0, b⟩ a) [])
            = some inv
          rw [← hffv]
          exact hff1
        have e1 := access_fifo_miss_free ⟨S, K, B, Policy.FIFO, 0, b⟩ st1 a inv rfl hfh1 hff1
        have e2 := access_fifo_miss_free ⟨S, K, B, Policy.FIFO, s, b⟩ st2 a inv rfl hfh2 hff2
        rw [e1, e2]
        refine ⟨h1, show st1.miss_count + 1 = st2.miss_count + 1 by omega, h3, h4,
          show bump st1.num_fifo = bump st2.num_fifo by rw [h5], ?_⟩
        apply CacheRel_set hcr
        · rw [List.length_set, List.length_set]
          omega
        · apply pointwise_set _ _ _ _ (by omega) hptv _ inv
          exact ⟨show bump st1.num_fifo = bump st2.num_fifo by rw [h5], rfl,
            fun _ => htagsplit⟩
      | none =>
        have hff2 : findFree (st2.cache.getD (num_set ⟨S, K, B, Policy.FIFO, s, b⟩ a) [])
            = none := by
          show findFree (st2.cache.getD (num_set ⟨S, K, B, Policy.FIFO, 0, b⟩ a) [])
            = none
          rw [← hffv]
          exact hff1
        have e1 := access_fifo_evict ⟨S, K, B, Policy.FIFO, 0, b⟩ st1 a rfl hfh1 hff1
        have e2 := access_fifo_evict ⟨S, K, B, Policy.FIFO, s, b⟩ st2 a rfl hfh2 hff2
        rw [hfv] at e1
        rw [e1, e2]
        refine ⟨h1, show st1.miss_count + 1 = st2.miss_count + 1 by omega,
          show st1.eviction_count + 1 = st2.eviction_count + 1 by omega, h4,
          show bump st1.num_fifo = bump st2.num_fifo by rw [h5], ?_⟩
        apply CacheRel_set hcr
        · rw [List.length_set, List.length_set]
          omega
        · apply pointwise_set _ _ _ _ (by omega) hptv _
            (fifoVictim (st2.cache.getD (num_set ⟨S, K, B, Policy.FIFO, 0, b⟩ a) []))
          exact ⟨show bump st1.num_fifo = bump st2.num_fifo by rw [h5], rfl,
            fun _ => htagsplit⟩

theorem c10_run (s b S K B : Nat) (pol : Policy) (hS : S = 2 ^ s) :
    ∀ (as : List Nat) (st1 st2 : SimState),
      Wf ⟨S, K, B, pol, 0, b⟩ st1 → Wf ⟨S, K, B, pol, s, b⟩ st2 →
      C10Rel s st1 st2 →
      C10Rel s (run_accesses ⟨S, K, B, pol, 0, b⟩ st1 as)
        (run_accesses ⟨S, K, B, pol, s, b⟩ st2 as) := by
  intro as
  induction as with
  | nil =>
    intro st1 st2 _ _ hrel
    exact hrel
  | cons x xs ih =>
    intro st1 st2 hw1 hw2 hrel
    exact ih _ _ (access_wf _ st1 x hw1) (access_wf _ st2 x hw2)
      (c10_access_step s b S K B pol hS x st1 st2 hw1 hw2 hrel)

theorem init_TagRel (s S K : Nat) :
    CacheRel (TagRel s) (allocate_cache S K) (allocate_cache S K) := by
  refine ⟨rfl, fun i => ⟨rfl, fun j => ?_⟩⟩
  have hline : ((allocate_cache S K).getD i []).getD j default =
      (⟨0, 0, false⟩ : BlockCache) := by
    by_cases hi : i < S
    · have hset : (allocate_cache S K).getD i [] =
          List.replicate K (⟨0, 0, false⟩ : BlockCache) := by
        unfold allocate_cache
        exact getD_replicate hi
      rw [hset]
      by_cases hj : j < K
      · exact getD_replicate hj
      · rw [List.getD_eq_getElem?_getD, List.getElem?_replicate, if_neg hj]
        rfl
    · have hset : (allocate_cache S K).getD i [] = [] := by
        unfold allocate_cache
        rw [List.getD_eq_getElem?_getD, List.getElem?_eq_none (by simp; omega)]
        rfl
      rw [hset]
      rfl
  rw [hline]
  exact ⟨rfl, rfl, fun hv => by simp at hv⟩

/-- C10: for a valid geometry, either policy and any trace, the statistics of
the run whose tag keeps the set-index bits (S_temp = 0, as the code computes)
equal the statistics of the run whose tag is address >> (setIndexBits +
blockOffsetBits): two addresses of the same set match on the one tag exactly
when they match on the other. -/
theorem c10_tag_shift_equivalent (s b S K B : Nat) (pol : Policy)
    (hS : S = 2 ^ s) (hB : B = 2 ^ b) (hK : 0 < K) (records : List TraceRecord) :
    statsOf (run_trace ⟨S, K, B, pol, 0, b⟩ records) =
      statsOf (run_trace ⟨S, K, B, pol, s, b⟩ records) := by
  have hSpos : 0 < S := by rw [hS]; exact Nat.pos_pow_of_pos s (by omega)
  rw [run_trace_eq, run_trace_eq]
  have hsame : records.flatMap (record_addrs (⟨S, K, B, pol, s, b⟩ : Config).B) =
      records.flatMap (record_addrs (⟨S, K, B, pol, 0, b⟩ : Config).B) := rfl
  rw [hsame]
  have hrel := c10_run s b S K B pol hS
    (records.flatMap (record_addrs (⟨S, K, B, pol, 0, b⟩ : Config).B))
    (initState ⟨S, K, B, pol, 0, b⟩) (initState ⟨S, K, B, pol, s, b⟩)
    (initState_wf _ hSpos hK) (initState_wf _ hSpos hK)
    ⟨rfl, rfl, rfl, rfl, rfl, init_TagRel s S K⟩
  obtain ⟨g1, g2, g3, _, _, _⟩ := hrel
  simp only [statsOf, g1, g2, g3]

/-- Witness for C10 at a concrete input: S = 4 = 2^2, B = 2 = 2^1, K = 2,
LRU, a trace with hits, misses and an eviction. -/
theorem c10_tag_shift_equivalent_witness :
    (4 = 2 ^ 2 ∧ 2 = 2 ^ 1 ∧ 0 < 2) ∧
    statsOf (run_trace ⟨4, 2, 2, Policy.LRU, 0, 1⟩
        [⟨'L', 0, 1⟩, ⟨'M', 8, 2⟩, ⟨'S', 16, 1⟩, ⟨'L', 24, 1⟩, ⟨'L', 32, 1⟩]) =
      statsOf (run_trace ⟨4, 2, 2, Policy.LRU, 2, 1⟩
        [⟨'L', 0, 1⟩, ⟨'M', 8, 2⟩, ⟨'S', 16, 1⟩, ⟨'L', 24, 1⟩, ⟨'L', 32, 1⟩]) :=
  ⟨⟨by decide, by decide, by decide⟩,
    c10_tag_shift_equivalent 2 1 4 2 2 Policy.LRU (by decide) (by decide) (by decide)
      [⟨'L', 0, 1⟩, ⟨'M', 8, 2⟩, ⟨'S', 16, 1⟩, ⟨'L', 24, 1⟩, ⟨'L', 32, 1⟩]⟩
